import Mathlib

/-!
NHD-C160100DiZ LCD driver (lcd.c): bus-trace model

A shallow embedding of the LCD routines of `lcd.c`.  The two globals of the
driver (`lcd_cur_column`, `lcd_draw_started`) and the sequence of events put on
the two-wire bus form the state; every C function becomes a state transformer.

* `uint8_t` values are natural numbers, reduced modulo 256 where the C code
  stores or transmits them.
* Port and pin set-up, the TWI clock configuration and the millisecond delays
  do not put anything on the bus and leave both globals alone, so they do not
  appear.  The busy-wait polls are taken to succeed.
* `lcd.h` is not part of the sources; its display constants are the fields of
  `Config`.
-/

namespace Lcd

/-- One observable event on the two-wire bus. -/
inductive BusEvent where
  /-- A (repeated) start condition followed by the packed address byte. -/
  | start (addressByte : Nat)
  /-- One byte written to the data register. -/
  | write (data : Nat)
  /-- A stop condition. -/
  | stop
  deriving DecidableEq, Repr

/-- The two globals of the driver and the bus events emitted so far. -/
structure State where
  /-- The global `uint8_t lcd_cur_column`. -/
  lcd_cur_column : Nat
  /-- The global `char lcd_draw_started`; non-zero means a draw session is open. -/
  lcd_draw_started : Nat
  /-- Bus events, oldest first. -/
  trace : List BusEvent
  deriving DecidableEq, Repr

/-- The constants of the missing header `lcd.h` that the code refers to. -/
structure Config where
  /-- The macro `LCD_WIDTH`: number of columns. -/
  LCD_WIDTH : Nat
  /-- The macro `LCD_ROWS`: number of rows. -/
  LCD_ROWS : Nat
  /-- The macro `FONT_TAB_SIZE`: characters per tab stop. -/
  FONT_TAB_SIZE : Nat
  deriving DecidableEq, Repr

/-- Modelled from the spec: the macro `FONT_WIDTH` of the missing header `lcd.h`.
The spec fixes the glyph cell at 6 columns (5 drawn plus 1 blank), and the
comment at the end of `lcd_draw_char` says the same. -/
def FONT_WIDTH : Nat := 6

def LCD_SLAVE_ADDR : Nat := 0x3F
def LCD_DATASEND : Nat := 0x40
def LCD_COMSEND : Nat := 0x00

/-! ## Bare minimum I2C routines -/

/-- The C function `i2c_start(uint8_t address, char readwrite)`: the address is
shifted left in 8 bits, the direction bit is or-ed in, and a start condition
with that byte is sent. -/
def i2c_start (address readwrite : Nat) (s : State) : State :=
  { s with trace := s.trace ++
      [BusEvent.start (((address <<< 1) % 256) ||| (if readwrite ≠ 0 then 1 else 0))] }

/-- The C function `i2c_stop()`. -/
def i2c_stop (s : State) : State :=
  { s with trace := s.trace ++ [BusEvent.stop] }

/-- The C function `i2c_write(uint8_t data)`: the argument is converted to 8 bits. -/
def i2c_write (data : Nat) (s : State) : State :=
  { s with trace := s.trace ++ [BusEvent.write (data % 256)] }

/-! ## LCD routines -/

/-- Inner greyscale loop `for (int m = 0; m < 4; m++)` of `lcd_init`, with
`n` iterations left. -/
def lcd_init_grey_inner (i k : Nat) : Nat → Nat → State → State
  | 0, _, s => s
  | n + 1, m, s => lcd_init_grey_inner i k n (m + 1) (i2c_write k (i2c_write (i + m) s))

/-- Outer greyscale loop `for (int i = 0x80, j = 0, k = 0; i <= 0xBF; i += 4, j++)`
of `lcd_init`. -/
def lcd_init_grey (i j : Nat) (s : State) : State :=
  if i ≤ 0xBF then
    lcd_init_grey (i + 4) (j + 1) (lcd_init_grey_inner i (j * 4) 4 0 s)
  else s
termination_by 0xC0 - i
decreasing_by omega

/-- The C function `lcd_init()`. -/
def lcd_init (s : State) : State :=
  let s := i2c_start LCD_SLAVE_ADDR 0 s
  let s := i2c_write LCD_COMSEND s
  let s := i2c_write 0x48 s
  let s := i2c_write 0x64 s
  let s := i2c_write 0xA0 s
  let s := i2c_write 0xC8 s
  let s := i2c_write 0x44 s
  let s := i2c_write 0x00 s
  let s := i2c_write 0xAB s
  let s := i2c_write 0x26 s
  let s := i2c_write 0x81 s
  let s := i2c_write 0x15 s
  let s := i2c_write 0x56 s
  let s := i2c_write 0x64 s
  let s := i2c_write 0x2C s
  let s := i2c_write 0x66 s
  let s := i2c_write 0x2E s
  let s := i2c_write 0x2F s
  let s := i2c_write 0xF3 s
  let s := i2c_write 0x00 s
  let s := i2c_write 0x96 s
  let s := i2c_write 0x38 s
  let s := i2c_write 0x75 s
  let s := i2c_write 0x97 s
  let s := lcd_init_grey 0x80 0 s
  let s := i2c_write 0x38 s
  let s := i2c_write 0x74 s
  let s := i2c_write 0xAF s
  let s := i2c_stop s
  { s with lcd_cur_column := 0, lcd_draw_started := 0 }

/-- The C function `lcd_draw_start()`. -/
def lcd_draw_start (s : State) : State :=
  let s := i2c_start LCD_SLAVE_ADDR 0 s
  let s := i2c_write LCD_DATASEND s
  { s with lcd_draw_started := 1 }

/-- The C function `lcd_draw_end()`. -/
def lcd_draw_end (s : State) : State :=
  let s := if s.lcd_draw_started ≠ 0 then i2c_stop s else s
  { s with lcd_draw_started := 0 }

/-- The C function `lcd_set_row(uint8_t r)`. -/
def lcd_set_row (r : Nat) (s : State) : State :=
  let s := if s.lcd_draw_started ≠ 0 then lcd_draw_end s else s
  let s := i2c_start LCD_SLAVE_ADDR 0 s
  let s := i2c_write LCD_COMSEND s
  let s := i2c_write (r ||| 0xB0) s
  i2c_stop s

/-- The C function `lcd_set_column(uint8_t c)`. -/
def lcd_set_column (c : Nat) (s : State) : State :=
  let s := if s.lcd_draw_started ≠ 0 then lcd_draw_end s else s
  let s := { s with lcd_cur_column := c }
  let s := i2c_start LCD_SLAVE_ADDR 0 s
  let s := i2c_write LCD_COMSEND s
  let s := i2c_write (((c &&& 0xF0) >>> 4) ||| 0x10) s
  let s := i2c_write (((c &&& 0x0F) >>> 0) ||| 0x00) s
  i2c_stop s

/-- The C function `lcd_set_row_column(uint8_t r, uint8_t c)`. -/
def lcd_set_row_column (r c : Nat) (s : State) : State :=
  let s := if s.lcd_draw_started ≠ 0 then lcd_draw_end s else s
  let s := { s with lcd_cur_column := c }
  let s := i2c_start LCD_SLAVE_ADDR 0 s
  let s := i2c_write LCD_COMSEND s
  let s := i2c_write (r ||| 0xB0) s
  let s := i2c_write (((c &&& 0xF0) >>> 4) ||| 0x10) s
  let s := i2c_write (((c &&& 0x0F) >>> 0) ||| 0x00) s
  i2c_stop s

/-- The C function `lcd_draw_unit(b0, b1, b2, b3)`; the increment of the
`uint8_t` column wraps modulo 256. -/
def lcd_draw_unit (b0 b1 b2 b3 : Nat) (s : State) : State :=
  let s := if s.lcd_draw_started = 0 then lcd_draw_start s else s
  let s := i2c_write b0 s
  let s := i2c_write b1 s
  let s := i2c_write b2 s
  let s := i2c_write b3 s
  { s with lcd_cur_column := (s.lcd_cur_column + 1) % 256 }

/-- Loop `for (int i = lcd_cur_column; i < LCD_WIDTH; i++)` of
`lcd_clear_restofrow`, with `n` iterations left; the counter is a local `int`
and is not read in the body. -/
def lcd_clear_restofrow_loop : Nat → State → State
  | 0, s => s
  | n + 1, s => lcd_clear_restofrow_loop n (lcd_draw_unit 0 0 0 0 s)

/-- The C function `lcd_clear_restofrow()`. -/
def lcd_clear_restofrow (cfg : Config) (s : State) : State :=
  lcd_draw_end (lcd_clear_restofrow_loop (cfg.LCD_WIDTH - s.lcd_cur_column) s)

/-- The C function `lcd_clear_row(char r, char c_start)`; both arguments are
converted to `uint8_t` for the call of `lcd_set_row_column`. -/
def lcd_clear_row (cfg : Config) (r c_start : Nat) (s : State) : State :=
  lcd_clear_restofrow cfg (lcd_set_row_column (r % 256) (c_start % 256) s)

/-- Loop `for (int r = 0; r < LCD_ROWS; r++)` of `lcd_clear_screen`, with `n`
iterations left and the counter at `r`. -/
def lcd_clear_screen_loop (cfg : Config) : Nat → Nat → State → State
  | 0, _, s => s
  | n + 1, r, s => lcd_clear_screen_loop cfg n (r + 1) (lcd_clear_row cfg r 0 s)

/-- The C function `lcd_clear_screen()`. -/
def lcd_clear_screen (cfg : Config) (s : State) : State :=
  lcd_clear_screen_loop cfg (cfg.LCD_ROWS - 0) 0 s

/-- The flash-resident table `lcd_font`: 5 bytes for each of 0x20 .. 0x7E. -/
def lcd_font : List Nat := [
  0x00, 0x00, 0x00, 0x00, 0x00,
  0x00, 0x00, 0xBE, 0x00, 0x00,
  0x00, 0x06, 0x00, 0x06, 0x00,
  0x28, 0xFE, 0x28, 0xFE, 0x28,
  0x08, 0x54, 0xFE, 0x54, 0x20,
  0x23, 0x13, 0x08, 0x64, 0x62,
  0x6C, 0x92, 0xAA, 0x44, 0xA0,
  0x00, 0x02, 0x04, 0x08, 0x00,
  0x00, 0x38, 0x44, 0x82, 0x00,
  0x00, 0x82, 0x44, 0x38, 0x00,
  0x28, 0x10, 0x7C, 0x10, 0x28,
  0x10, 0x10, 0x7C, 0x10, 0x10,
  0x00, 0xB0, 0x70, 0x00, 0x00,
  0x10, 0x10, 0x10, 0x10, 0x10,
  0x00, 0x60, 0x60, 0x00, 0x00,
  0x40, 0x20, 0x10, 0x08, 0x04,
  0x7C, 0xA2, 0x92, 0x8A, 0x7C,
  0x00, 0x84, 0xFE, 0x80, 0x00,
  0x84, 0xC2, 0xA2, 0x92, 0x8C,
  0x44, 0x82, 0x92, 0x92, 0x6C,
  0x30, 0x28, 0x24, 0xFE, 0x20,
  0x4E, 0x8A, 0x8A, 0x8A, 0x72,
  0x7C, 0x92, 0x92, 0x92, 0x64,
  0x02, 0x02, 0xF2, 0x0A, 0x06,
  0x6C, 0x92, 0x92, 0x92, 0x6C,
  0x0C, 0x92, 0x92, 0x52, 0x3C,
  0x00, 0x6C, 0x6C, 0x00, 0x00,
  0x00, 0xAC, 0x6C, 0x00, 0x00,
  0x10, 0x28, 0x44, 0x82, 0x00,
  0x28, 0x28, 0x28, 0x28, 0x28,
  0x00, 0x82, 0x44, 0x28, 0x10,
  0x04, 0x02, 0xA2, 0x12, 0x0C,
  0x7C, 0x82, 0xBA, 0xAA, 0xBC,
  0xF8, 0x24, 0x22, 0x24, 0xF8,
  0xFE, 0x92, 0x92, 0x92, 0x6C,
  0x7C, 0x82, 0x82, 0x82, 0x44,
  0xFE, 0x82, 0x82, 0x44, 0x38,
  0xFE, 0x92, 0x92, 0x92, 0x82,
  0xFE, 0x12, 0x12, 0x12, 0x02,
  0x7C, 0x82, 0x92, 0x92, 0x74,
  0xFE, 0x10, 0x10, 0x10, 0xFE,
  0x00, 0x82, 0xFE, 0x82, 0x00,
  0x40, 0x80, 0x82, 0x7E, 0x02,
  0xFE, 0x10, 0x28, 0x44, 0x82,
  0xFE, 0x80, 0x80, 0x80, 0x80,
  0xFE, 0x04, 0x08, 0x04, 0xFE,
  0xFE, 0x08, 0x10, 0x20, 0xFE,
  0x7C, 0x82, 0x82, 0x82, 0x7C,
  0xFE, 0x12, 0x12, 0x12, 0x0C,
  0x7C, 0x82, 0xA2, 0x42, 0xBC,
  0xFE, 0x12, 0x32, 0x52, 0x8C,
  0x8C, 0x92, 0x92, 0x92, 0x62,
  0x02, 0x02, 0xFE, 0x02, 0x02,
  0x7E, 0x80, 0x80, 0x80, 0x7E,
  0x3E, 0x40, 0x80, 0x40, 0x3E,
  0x7E, 0x80, 0x7C, 0x80, 0x7E,
  0xC6, 0x28, 0x10, 0x28, 0xC6,
  0x0E, 0x10, 0xE0, 0x10, 0x0E,
  0xC2, 0xA2, 0x92, 0x8A, 0x86,
  0x00, 0xFF, 0x81, 0x81, 0x00,
  0x04, 0x08, 0x10, 0x20, 0x40,
  0x00, 0x82, 0x82, 0xFE, 0x00,
  0x08, 0x04, 0x02, 0x04, 0x08,
  0x80, 0x80, 0x80, 0x80, 0x80,
  0x00, 0x0E, 0x0A, 0x0E, 0x00,
  0x40, 0xA8, 0xA8, 0xA8, 0xF0,
  0xFE, 0x90, 0x88, 0x88, 0x70,
  0x70, 0x88, 0x88, 0x88, 0x00,
  0x70, 0x88, 0x88, 0x90, 0xFE,
  0x70, 0xA8, 0xA8, 0xA8, 0x30,
  0x10, 0xFC, 0x12, 0x02, 0x04,
  0x0C, 0x92, 0x92, 0x92, 0x7E,
  0xFE, 0x20, 0x10, 0x10, 0xF0,
  0x00, 0x88, 0xFA, 0x80, 0x00,
  0x40, 0x80, 0x88, 0x7A, 0x00,
  0xFE, 0x20, 0x50, 0x88, 0x00,
  0x00, 0x82, 0xFE, 0x80, 0x00,
  0xF8, 0x08, 0x30, 0x08, 0xF0,
  0xF8, 0x10, 0x08, 0x08, 0xF0,
  0x70, 0x88, 0x88, 0x88, 0x70,
  0xF8, 0x28, 0x28, 0x28, 0x10,
  0x18, 0x24, 0x24, 0x28, 0xFC,
  0xF8, 0x10, 0x08, 0x08, 0x10,
  0x90, 0xA8, 0xA8, 0xA8, 0x40,
  0x08, 0x7E, 0x88, 0x80, 0x40,
  0x78, 0x80, 0x80, 0x40, 0xF8,
  0x38, 0x40, 0x80, 0x40, 0x38,
  0x78, 0x80, 0x60, 0x80, 0x78,
  0x88, 0x58, 0x20, 0xD0, 0x88,
  0x98, 0xA0, 0xA0, 0xA0, 0x78,
  0x88, 0xC8, 0xA8, 0x98, 0x88,
  0x00, 0x10, 0x6C, 0x82, 0x00,
  0x00, 0x00, 0xEE, 0x00, 0x00,
  0x00, 0x82, 0x6C, 0x10, 0x00,
  0x04, 0x02, 0x04, 0x08, 0x04
]

/-- The read `pgm_read_byte(&(lcd_font[idx]))`; an index outside the table is
undefined behaviour in C and gives `none`. -/
def pgm_read_byte_lcd_font (idx : Int) : Option Nat :=
  if 0 ≤ idx then lcd_font[idx.toNat]? else none

/-- Loop `for (int i = 0; i < FONT_WIDTH-1; i++)` of `lcd_draw_char`, with `n`
iterations left and the counter at `i`. -/
def lcd_draw_char_glyph (c : Int) : Nat → Nat → State → Option State
  | 0, _, s => some s
  | n + 1, i, s =>
    match pgm_read_byte_lcd_font ((c - 0x20) * 5 + (i : Int)) with
    | none => none
    | some f => lcd_draw_char_glyph c n (i + 1) (lcd_draw_unit f f f f s)

/-- The alignment loop of the tab branch of `lcd_draw_char`:
`do { lcd_draw_unit(0, 0, 0, 0); } while ((lcd_cur_column % M) != 0);`
with `M = FONT_WIDTH * FONT_TAB_SIZE`.  The 8-bit column returns to 0 after at
most 256 increments, which ends the loop. -/
def lcd_draw_char_tab_loop (M : Nat) (s : State) : State :=
  if (lcd_draw_unit 0 0 0 0 s).lcd_cur_column % M ≠ 0 then
    lcd_draw_char_tab_loop M (lcd_draw_unit 0 0 0 0 s)
  else lcd_draw_unit 0 0 0 0 s
termination_by 256 - s.lcd_cur_column % 256
decreasing_by
  rename_i h
  have hcol : (lcd_draw_unit 0 0 0 0 s).lcd_cur_column = (s.lcd_cur_column + 1) % 256 := by
    simp [lcd_draw_unit, lcd_draw_start, i2c_write, i2c_start]
    split <;> rfl
  rw [hcol] at h ⊢
  have hne : (s.lcd_cur_column + 1) % 256 ≠ 0 := by
    intro h0
    rw [h0] at h
    simp at h
  omega

/-- The C function `lcd_draw_char(char c)`, with `c` the value of the
character as an `int`.  `none` stands for undefined behaviour: a font read
outside the table, or a modulo by zero in the tab branch. -/
def lcd_draw_char (cfg : Config) (c : Int) (s : State) : Option State :=
  if c = 10 then
    some (lcd_clear_restofrow cfg s)
  else if c = 13 then
    some s
  else if c = 9 then
    let s := lcd_draw_unit 0 0 0 0 s
    let s := lcd_draw_unit 0 0 0 0 s
    let s := lcd_draw_unit 0 0 0 0 s
    let s := lcd_draw_unit 0 0 0 0 s
    let s := lcd_draw_unit 0 0 0 0 s
    if FONT_WIDTH * cfg.FONT_TAB_SIZE = 0 then none
    else some (lcd_draw_char_tab_loop (FONT_WIDTH * cfg.FONT_TAB_SIZE) s)
  else if c ≠ 0 then
    match lcd_draw_char_glyph c (FONT_WIDTH - 1 - 0) 0 s with
    | none => none
    | some s => some (lcd_draw_unit 0 0 0 0 s)
  else some s

/-- The C function `lcd_draw_putchar(char c, FILE* f)`: the stdio sink; the
stream argument is not used.  The result is the returned `int` and the state. -/
def lcd_draw_putchar (cfg : Config) (c : Int) (s : State) : Option (Int × State) :=
  match lcd_draw_char cfg c s with
  | none => none
  | some s => some (0, s)

/-- The alignment loop of the tab branch again, cut off after `fuel`
iterations: `none` when the loop has not ended by then. -/
def lcd_draw_char_tab_loop_bounded (M : Nat) : Nat → State → Option State
  | 0, _ => none
  | fuel + 1, s =>
    if (lcd_draw_unit 0 0 0 0 s).lcd_cur_column % M ≠ 0 then
      lcd_draw_char_tab_loop_bounded M fuel (lcd_draw_unit 0 0 0 0 s)
    else some (lcd_draw_unit 0 0 0 0 s)

/-- A caller that feeds a string to `lcd_draw_char`, one character after the
other; undefined behaviour of one call makes the whole run undefined. -/
def lcd_draw_chars (cfg : Config) : List Int → State → Option State
  | [], s => some s
  | c :: cs, s =>
    match lcd_draw_char cfg c s with
    | none => none
    | some s => lcd_draw_chars cfg cs s

/-- A caller that feeds a string to the stdio sink `lcd_draw_putchar`, one
character after the other, and collects the returned values. -/
def lcd_draw_putchars (cfg : Config) : List Int → State → Option (List Int × State)
  | [], s => some ([], s)
  | c :: cs, s =>
    match lcd_draw_putchar cfg c s with
    | none => none
    | some (ret, s) =>
      match lcd_draw_putchars cfg cs s with
      | none => none
      | some (rets, s) => some (ret :: rets, s)

/-- The 24 data bytes of one printable character: its five glyph columns, each
four times, then four zero bytes. -/
def glyphEvents (c : Int) : List BusEvent :=
  (List.range 5).flatMap (fun i =>
    List.replicate 4 (BusEvent.write (lcd_font.getD ((c - 0x20) * 5 + (i : Int)).toNat 0))) ++
  List.replicate 4 (BusEvent.write 0)

/-- One call of a public operation of the driver. -/
inductive Op where
  | init
  | set_row (r : Nat)
  | set_column (c : Nat)
  | set_row_column (r c : Nat)
  | draw_start
  | draw_end
  | draw_unit (b0 b1 b2 b3 : Nat)
  | clear_row (r c_start : Nat)
  | clear_restofrow
  | clear_screen
  | draw_char (c : Int)
  deriving DecidableEq, Repr

/-- The effect of one public operation; `none` is undefined behaviour. -/
def Op.run (cfg : Config) : Op → State → Option State
  | Op.init, s => some (lcd_init s)
  | Op.set_row r, s => some (lcd_set_row r s)
  | Op.set_column c, s => some (lcd_set_column c s)
  | Op.set_row_column r c, s => some (lcd_set_row_column r c s)
  | Op.draw_start, s => some (lcd_draw_start s)
  | Op.draw_end, s => some (lcd_draw_end s)
  | Op.draw_unit b0 b1 b2 b3, s => some (lcd_draw_unit b0 b1 b2 b3 s)
  | Op.clear_row r c_start, s => some (lcd_clear_row cfg r c_start s)
  | Op.clear_restofrow, s => some (lcd_clear_restofrow cfg s)
  | Op.clear_screen, s => some (lcd_clear_screen cfg s)
  | Op.draw_char c, s => lcd_draw_char cfg c s

/-- A finite sequence of public operations, run in order. -/
def runOps (cfg : Config) : List Op → State → Option State
  | [], s => some s
  | op :: ops, s =>
    match op.run cfg s with
    | none => none
    | some s => runOps cfg ops s

/-- The characters `lcd_draw_char` has defined behaviour on: newline, carriage
return, null, the printable range, and tab when the tab width is not zero. -/
def charDefined (cfg : Config) (c : Int) : Bool :=
  c = 10 || c = 13 || c = 0 || (0x20 ≤ c && c ≤ 0x7E) || (c = 9 && cfg.FONT_TAB_SIZE ≠ 0)

/-- Operations with defined behaviour: all of them, but for `lcd_draw_char`
only on the characters of `charDefined`. -/
def Op.defined (cfg : Config) : Op → Bool
  | Op.draw_char c => charDefined cfg c
  | _ => true

/-- Bus framing as a state machine over a trace.  The flag says whether a
transaction is in progress (a start not yet followed by a stop).  A start
(also a repeated one) puts a transaction in progress, a write or a stop needs
one in progress, a stop ends it.  The result is `none` when a write or stop
comes with no transaction in progress, else the flag after the trace. -/
def frameScan : Bool → List BusEvent → Option Bool
  | b, [] => some b
  | _, BusEvent.start _ :: es => frameScan true es
  | b, BusEvent.write _ :: es => if b then frameScan true es else none
  | b, BusEvent.stop :: es => if b then frameScan false es else none

/-- The read `pgm_read_byte(&(lcd_font[idx]))` as the device performs it: inside
the table it gives the table byte; outside the table there is no range check,
and it gives the byte the flash holds at that address, `flash idx` in 8 bits. -/
def pgm_read_byte_flash (flash : Int → Nat) (idx : Int) : Nat :=
  match pgm_read_byte_lcd_font idx with
  | some f => f
  | none => flash idx % 256

/-- Loop `for (int i = 0; i < FONT_WIDTH-1; i++)` of `lcd_draw_char` with the
reads of `pgm_read_byte_flash`, with `n` iterations left and the counter at `i`. -/
def lcd_draw_char_glyph_flash (flash : Int → Nat) (c : Int) : Nat → Nat → State → State
  | 0, _, s => s
  | n + 1, i, s =>
    lcd_draw_char_glyph_flash flash c n (i + 1)
      (lcd_draw_unit (pgm_read_byte_flash flash ((c - 0x20) * 5 + (i : Int)))
        (pgm_read_byte_flash flash ((c - 0x20) * 5 + (i : Int)))
        (pgm_read_byte_flash flash ((c - 0x20) * 5 + (i : Int)))
        (pgm_read_byte_flash flash ((c - 0x20) * 5 + (i : Int))) s)

/-- The C function `lcd_draw_char(char c)` with the font reads of
`pgm_read_byte_flash`: every character code has a result, whatever the flash
holds around the table.  `none` is left for the modulo by zero of the tab
branch. -/
def lcd_draw_char_flash (cfg : Config) (flash : Int → Nat) (c : Int) (s : State) :
    Option State :=
  if c = 10 then
    some (lcd_clear_restofrow cfg s)
  else if c = 13 then
    some s
  else if c = 9 then
    let s := lcd_draw_unit 0 0 0 0 s
    let s := lcd_draw_unit 0 0 0 0 s
    let s := lcd_draw_unit 0 0 0 0 s
    let s := lcd_draw_unit 0 0 0 0 s
    let s := lcd_draw_unit 0 0 0 0 s
    if FONT_WIDTH * cfg.FONT_TAB_SIZE = 0 then none
    else some (lcd_draw_char_tab_loop (FONT_WIDTH * cfg.FONT_TAB_SIZE) s)
  else if c ≠ 0 then
    some (lcd_draw_unit 0 0 0 0 (lcd_draw_char_glyph_flash flash c (FONT_WIDTH - 1 - 0) 0 s))
  else some s

/-- The effect of one public operation, with `lcd_draw_char_flash` for
`lcd_draw_char`. -/
def Op.runFlash (cfg : Config) (flash : Int → Nat) : Op → State → Option State
  | Op.draw_char c, s => lcd_draw_char_flash cfg flash c s
  | op, s => op.run cfg s

/-- A finite sequence of public operations, run in order with `Op.runFlash`. -/
def runOpsFlash (cfg : Config) (flash : Int → Nat) : List Op → State → Option State
  | [], s => some s
  | op :: ops, s =>
    match op.runFlash cfg flash s with
    | none => none
    | some s => runOpsFlash cfg flash ops s

/-! ## Basic facts -/

set_option maxRecDepth 100000 in
theorem lcd_font_length : lcd_font.length = 475 := by rfl

theorem lcd_draw_unit_closed (b0 b1 b2 b3 : Nat) (s : State) (h : s.lcd_draw_started = 0) :
    lcd_draw_unit b0 b1 b2 b3 s =
      { lcd_cur_column := (s.lcd_cur_column + 1) % 256
        lcd_draw_started := 1
        trace := s.trace ++ [BusEvent.start 0x7E, BusEvent.write 0x40,
          BusEvent.write (b0 % 256), BusEvent.write (b1 % 256),
          BusEvent.write (b2 % 256), BusEvent.write (b3 % 256)] } := by
  simp [lcd_draw_unit, lcd_draw_start, i2c_write, i2c_start, h, LCD_SLAVE_ADDR, LCD_DATASEND]

theorem lcd_draw_unit_open (b0 b1 b2 b3 : Nat) (s : State) (h : s.lcd_draw_started ≠ 0) :
    lcd_draw_unit b0 b1 b2 b3 s =
      { lcd_cur_column := (s.lcd_cur_column + 1) % 256
        lcd_draw_started := s.lcd_draw_started
        trace := s.trace ++ [BusEvent.write (b0 % 256), BusEvent.write (b1 % 256),
          BusEvent.write (b2 % 256), BusEvent.write (b3 % 256)] } := by
  simp [lcd_draw_unit, lcd_draw_start, i2c_write, i2c_start, h]

theorem lcd_draw_end_eq (s : State) :
    lcd_draw_end s =
      { lcd_cur_column := s.lcd_cur_column
        lcd_draw_started := 0
        trace := s.trace ++ (if s.lcd_draw_started ≠ 0 then [BusEvent.stop] else []) } := by
  by_cases h : s.lcd_draw_started = 0 <;> simp [lcd_draw_end, i2c_stop, h]

theorem blank_unit_eq_replicate :
    [BusEvent.write (0 % 256), BusEvent.write (0 % 256), BusEvent.write (0 % 256),
      BusEvent.write (0 % 256)] = List.replicate 4 (BusEvent.write 0) := rfl

/-- The blank-unit loop from an open session: only the unit bytes are written. -/
theorem lcd_clear_restofrow_loop_open (n : Nat) (s : State) (h : s.lcd_draw_started ≠ 0) :
    lcd_clear_restofrow_loop (n + 1) s =
      { lcd_cur_column := (s.lcd_cur_column + (n + 1)) % 256
        lcd_draw_started := s.lcd_draw_started
        trace := s.trace ++ List.replicate (4 * (n + 1)) (BusEvent.write 0) } := by
  induction n generalizing s with
  | zero =>
    rw [lcd_clear_restofrow_loop, lcd_clear_restofrow_loop, lcd_draw_unit_open _ _ _ _ s h,
      blank_unit_eq_replicate]
  | succ n ih =>
    rw [lcd_clear_restofrow_loop, ih _ (by rw [lcd_draw_unit_open _ _ _ _ s h]; exact h),
      lcd_draw_unit_open _ _ _ _ s h, blank_unit_eq_replicate]
    simp only [List.append_assoc, ← List.replicate_add, State.mk.injEq, true_and]
    refine ⟨by omega, ?_⟩
    congr 2
    omega

/-- The blank-unit loop from a closed session: the first unit opens the data
transaction. -/
theorem lcd_clear_restofrow_loop_closed (n : Nat) (s : State) (h : s.lcd_draw_started = 0) :
    lcd_clear_restofrow_loop (n + 1) s =
      { lcd_cur_column := (s.lcd_cur_column + (n + 1)) % 256
        lcd_draw_started := 1
        trace := s.trace ++ [BusEvent.start 0x7E, BusEvent.write 0x40] ++
          List.replicate (4 * (n + 1)) (BusEvent.write 0) } := by
  cases n with
  | zero =>
    rw [lcd_clear_restofrow_loop, lcd_clear_restofrow_loop, lcd_draw_unit_closed _ _ _ _ s h]
    simp [List.replicate]
  | succ n =>
    rw [lcd_clear_restofrow_loop, lcd_clear_restofrow_loop_open n _
      (by rw [lcd_draw_unit_closed _ _ _ _ s h]; exact Nat.one_ne_zero), lcd_draw_unit_closed _ _ _ _ s h]
    simp only [State.mk.injEq, true_and]
    refine ⟨by omega, ?_⟩
    have e : 4 * (n + 1 + 1) = 4 + 4 * (n + 1) := by ring
    rw [e, List.replicate_add]
    simp [List.replicate]

theorem lcd_clear_restofrow_eq (cfg : Config) (s : State) :
    lcd_clear_restofrow cfg s =
      { lcd_cur_column :=
          if s.lcd_cur_column < cfg.LCD_WIDTH then
            (s.lcd_cur_column + (cfg.LCD_WIDTH - s.lcd_cur_column)) % 256
          else s.lcd_cur_column
        lcd_draw_started := 0
        trace := s.trace ++
          (if s.lcd_draw_started = 0 ∧ s.lcd_cur_column < cfg.LCD_WIDTH then
            [BusEvent.start 0x7E, BusEvent.write 0x40] else []) ++
          List.replicate (4 * (cfg.LCD_WIDTH - s.lcd_cur_column)) (BusEvent.write 0) ++
          (if s.lcd_draw_started ≠ 0 ∨ s.lcd_cur_column < cfg.LCD_WIDTH then
            [BusEvent.stop] else []) } := by
  unfold lcd_clear_restofrow
  by_cases hlt : s.lcd_cur_column < cfg.LCD_WIDTH
  · obtain ⟨n, hn⟩ : ∃ n, cfg.LCD_WIDTH - s.lcd_cur_column = n + 1 := ⟨_, (Nat.succ_pred_eq_of_pos (by omega)).symm⟩
    rw [hn]
    by_cases hs : s.lcd_draw_started = 0
    · rw [lcd_clear_restofrow_loop_closed n s hs, lcd_draw_end_eq]
      simp [hs, hlt]
    · rw [lcd_clear_restofrow_loop_open n s hs, lcd_draw_end_eq]
      simp [hs, hlt]
  · have h0 : cfg.LCD_WIDTH - s.lcd_cur_column = 0 := by omega
    rw [h0, lcd_clear_restofrow_loop, lcd_draw_end_eq]
    by_cases hs : s.lcd_draw_started = 0 <;> simp [hs, hlt]

theorem row_byte_lt (r : Nat) (h : r < 256) : r ||| 0xB0 < 256 :=
  Nat.or_lt_two_pow (n := 8) h (by decide)

theorem column_high_byte_lt (c : Nat) : ((c &&& 0xF0) >>> 4) ||| 0x10 < 256 := by
  have h1 : c &&& 0xF0 ≤ 0xF0 := Nat.and_le_right
  have h2 : (c &&& 0xF0) >>> 4 < 2 ^ 5 := by
    rw [Nat.shiftRight_eq_div_pow]
    omega
  have h3 := Nat.or_lt_two_pow (n := 5) h2 (by decide : 0x10 < 2 ^ 5)
  omega

theorem column_low_byte_lt (c : Nat) : c &&& 0x0F < 256 := by
  have h1 : c &&& 0x0F ≤ 0x0F := Nat.and_le_right
  omega

theorem lcd_set_row_eq (r : Nat) (s : State) :
    lcd_set_row r s =
      { lcd_cur_column := s.lcd_cur_column
        lcd_draw_started := if s.lcd_draw_started ≠ 0 then 0 else s.lcd_draw_started
        trace := s.trace ++ (if s.lcd_draw_started ≠ 0 then [BusEvent.stop] else []) ++
          [BusEvent.start 0x7E, BusEvent.write 0x00, BusEvent.write ((r ||| 0xB0) % 256),
            BusEvent.stop] } := by
  by_cases hs : s.lcd_draw_started = 0 <;>
    simp [lcd_set_row, lcd_draw_end, i2c_start, i2c_write, i2c_stop, hs, LCD_SLAVE_ADDR,
      LCD_COMSEND]

theorem lcd_set_column_eq (c : Nat) (s : State) :
    lcd_set_column c s =
      { lcd_cur_column := c
        lcd_draw_started := if s.lcd_draw_started ≠ 0 then 0 else s.lcd_draw_started
        trace := s.trace ++ (if s.lcd_draw_started ≠ 0 then [BusEvent.stop] else []) ++
          [BusEvent.start 0x7E, BusEvent.write 0x00,
            BusEvent.write (((c &&& 0xF0) >>> 4) ||| 0x10), BusEvent.write (c &&& 0x0F),
            BusEvent.stop] } := by
  have h1 := Nat.mod_eq_of_lt (column_high_byte_lt c)
  have h2 := Nat.mod_eq_of_lt (column_low_byte_lt c)
  by_cases hs : s.lcd_draw_started = 0 <;>
    simp [lcd_set_column, lcd_draw_end, i2c_start, i2c_write, i2c_stop, hs, LCD_SLAVE_ADDR,
      LCD_COMSEND, h1, h2]

theorem lcd_set_row_column_eq (r c : Nat) (s : State) :
    lcd_set_row_column r c s =
      { lcd_cur_column := c
        lcd_draw_started := if s.lcd_draw_started ≠ 0 then 0 else s.lcd_draw_started
        trace := s.trace ++ (if s.lcd_draw_started ≠ 0 then [BusEvent.stop] else []) ++
          [BusEvent.start 0x7E, BusEvent.write 0x00, BusEvent.write ((r ||| 0xB0) % 256),
            BusEvent.write (((c &&& 0xF0) >>> 4) ||| 0x10), BusEvent.write (c &&& 0x0F),
            BusEvent.stop] } := by
  have h1 := Nat.mod_eq_of_lt (column_high_byte_lt c)
  have h2 := Nat.mod_eq_of_lt (column_low_byte_lt c)
  by_cases hs : s.lcd_draw_started = 0 <;>
    simp [lcd_set_row_column, lcd_draw_end, i2c_start, i2c_write, i2c_stop, hs, LCD_SLAVE_ADDR,
      LCD_COMSEND, h1, h2]

theorem lcd_clear_row_eq (cfg : Config) (r : Nat) (s : State) (hw : 0 < cfg.LCD_WIDTH) :
    lcd_clear_row cfg r 0 s =
      { lcd_cur_column := cfg.LCD_WIDTH % 256
        lcd_draw_started := 0
        trace := s.trace ++ (if s.lcd_draw_started ≠ 0 then [BusEvent.stop] else []) ++
          ([BusEvent.start 0x7E, BusEvent.write 0x00, BusEvent.write ((r % 256) ||| 0xB0),
              BusEvent.write 0x10, BusEvent.write 0x00, BusEvent.stop,
              BusEvent.start 0x7E, BusEvent.write 0x40] ++
            List.replicate (4 * cfg.LCD_WIDTH) (BusEvent.write 0) ++ [BusEvent.stop]) } := by
  have hr := Nat.mod_eq_of_lt (row_byte_lt (r % 256) (Nat.mod_lt _ (by decide)))
  unfold lcd_clear_row
  rw [lcd_clear_restofrow_eq, lcd_set_row_column_eq, hr]
  by_cases hs : s.lcd_draw_started = 0 <;> simp [hs, hw]

theorem lcd_clear_screen_loop_eq (cfg : Config) (hw : 0 < cfg.LCD_WIDTH) (n r : Nat)
    (s : State) :
    lcd_clear_screen_loop cfg (n + 1) r s =
      { lcd_cur_column := cfg.LCD_WIDTH % 256
        lcd_draw_started := 0
        trace := s.trace ++ (if s.lcd_draw_started ≠ 0 then [BusEvent.stop] else []) ++
          (List.range' r (n + 1)).flatMap (fun q =>
            [BusEvent.start 0x7E, BusEvent.write 0x00, BusEvent.write ((q % 256) ||| 0xB0),
              BusEvent.write 0x10, BusEvent.write 0x00, BusEvent.stop,
              BusEvent.start 0x7E, BusEvent.write 0x40] ++
            List.replicate (4 * cfg.LCD_WIDTH) (BusEvent.write 0) ++ [BusEvent.stop]) } := by
  induction n generalizing r s with
  | zero =>
    rw [lcd_clear_screen_loop, lcd_clear_screen_loop, lcd_clear_row_eq cfg r s hw]
    simp
  | succ n ih =>
    rw [lcd_clear_screen_loop, ih, lcd_clear_row_eq cfg r s hw]
    rw [List.range'_succ r (n + 1)]
    simp

theorem lcd_clear_screen_loop_foldl (cfg : Config) (n r : Nat) (s : State) :
    lcd_clear_screen_loop cfg n r s =
      (List.range' r n).foldl (fun st q => lcd_clear_row cfg q 0 st) s := by
  induction n generalizing r s with
  | zero => rfl
  | succ n ih => rw [lcd_clear_screen_loop, ih, List.range'_succ, List.foldl_cons]

theorem flatMap_range_rows (cfg : Config) (n : Nat) (hn : n ≤ 256) :
    (List.range' 0 n).flatMap (fun q =>
        [BusEvent.start 0x7E, BusEvent.write 0x00, BusEvent.write ((q % 256) ||| 0xB0),
          BusEvent.write 0x10, BusEvent.write 0x00, BusEvent.stop,
          BusEvent.start 0x7E, BusEvent.write 0x40] ++
        List.replicate (4 * cfg.LCD_WIDTH) (BusEvent.write 0) ++ [BusEvent.stop]) =
      (List.range n).flatMap (fun q =>
        [BusEvent.start 0x7E, BusEvent.write 0x00, BusEvent.write (q ||| 0xB0),
          BusEvent.write 0x10, BusEvent.write 0x00, BusEvent.stop,
          BusEvent.start 0x7E, BusEvent.write 0x40] ++
        List.replicate (4 * cfg.LCD_WIDTH) (BusEvent.write 0) ++ [BusEvent.stop]) := by
  rw [← List.range_eq_range']
  simp only [List.flatMap]
  congr 1
  apply List.map_congr_left
  intro q hq
  rw [Nat.mod_eq_of_lt (by have := List.mem_range.mp hq; omega)]

theorem lcd_init_grey_inner_eq (i k : Nat) (s : State) :
    lcd_init_grey_inner i k 4 0 s =
      { s with trace := s.trace ++
          [BusEvent.write (i % 256), BusEvent.write (k % 256),
            BusEvent.write ((i + 1) % 256), BusEvent.write (k % 256),
            BusEvent.write ((i + 2) % 256), BusEvent.write (k % 256),
            BusEvent.write ((i + 3) % 256), BusEvent.write (k % 256)] } := by
  simp [lcd_init_grey_inner, i2c_write]

theorem lcd_init_grey_levels (n j : Nat) (s : State) (h : j + n = 16) :
    lcd_init_grey (0x80 + 4 * j) j s =
      { s with trace := s.trace ++
          (List.range' j n).flatMap (fun l =>
            [BusEvent.write (0x80 + 4 * l), BusEvent.write (l * 4),
              BusEvent.write (0x80 + 4 * l + 1), BusEvent.write (l * 4),
              BusEvent.write (0x80 + 4 * l + 2), BusEvent.write (l * 4),
              BusEvent.write (0x80 + 4 * l + 3), BusEvent.write (l * 4)]) } := by
  induction n generalizing j s with
  | zero =>
    rw [lcd_init_grey, if_neg (by omega)]
    simp
  | succ n ih =>
    rw [lcd_init_grey, if_pos (by omega), lcd_init_grey_inner_eq]
    have e : 0x80 + 4 * j + 4 = 0x80 + 4 * (j + 1) := by ring
    rw [e, ih (j + 1) _ (by omega), List.range'_succ]
    have m0 : (0x80 + 4 * j) % 256 = 0x80 + 4 * j := Nat.mod_eq_of_lt (by omega)
    have m1 : (0x80 + 4 * j + 1) % 256 = 0x80 + 4 * j + 1 := Nat.mod_eq_of_lt (by omega)
    have m2 : (0x80 + 4 * j + 2) % 256 = 0x80 + 4 * j + 2 := Nat.mod_eq_of_lt (by omega)
    have m3 : (0x80 + 4 * j + 3) % 256 = 0x80 + 4 * j + 3 := Nat.mod_eq_of_lt (by omega)
    have mk : (j * 4) % 256 = j * 4 := Nat.mod_eq_of_lt (by omega)
    simp [m0, m1, m2, m3, mk]

set_option maxRecDepth 100000 in
theorem grey_levels_eq_entries :
    (List.range' 0 16).flatMap (fun l =>
        [BusEvent.write (0x80 + 4 * l), BusEvent.write (l * 4),
          BusEvent.write (0x80 + 4 * l + 1), BusEvent.write (l * 4),
          BusEvent.write (0x80 + 4 * l + 2), BusEvent.write (l * 4),
          BusEvent.write (0x80 + 4 * l + 3), BusEvent.write (l * 4)]) =
      (List.range 64).flatMap (fun n =>
        [BusEvent.write (0x80 + n), BusEvent.write (n / 4 * 4)]) := by
  decide

theorem lcd_init_grey_eq (s : State) :
    lcd_init_grey 0x80 0 s =
      { s with trace := s.trace ++
          (List.range 64).flatMap (fun n =>
            [BusEvent.write (0x80 + n), BusEvent.write (n / 4 * 4)]) } := by
  have h := lcd_init_grey_levels 16 0 s (by omega)
  rw [grey_levels_eq_entries] at h
  exact h

theorem lcd_init_eq (s : State) :
    lcd_init s =
      { lcd_cur_column := 0
        lcd_draw_started := 0
        trace := s.trace ++
          [BusEvent.start 0x7E, BusEvent.write 0x00,
            BusEvent.write 0x48, BusEvent.write 0x64, BusEvent.write 0xA0, BusEvent.write 0xC8,
            BusEvent.write 0x44, BusEvent.write 0x00, BusEvent.write 0xAB, BusEvent.write 0x26,
            BusEvent.write 0x81, BusEvent.write 0x15, BusEvent.write 0x56, BusEvent.write 0x64,
            BusEvent.write 0x2C, BusEvent.write 0x66, BusEvent.write 0x2E, BusEvent.write 0x2F,
            BusEvent.write 0xF3, BusEvent.write 0x00, BusEvent.write 0x96, BusEvent.write 0x38,
            BusEvent.write 0x75, BusEvent.write 0x97] ++
          (List.range 64).flatMap (fun n =>
            [BusEvent.write (0x80 + n), BusEvent.write (n / 4 * 4)]) ++
          [BusEvent.write 0x38, BusEvent.write 0x74, BusEvent.write 0xAF, BusEvent.stop] } := by
  simp only [lcd_init, lcd_init_grey_eq]
  simp [i2c_start, i2c_write, i2c_stop, LCD_SLAVE_ADDR, LCD_COMSEND]

set_option maxRecDepth 100000 in
theorem lcd_font_bytes : ∀ x ∈ lcd_font, x < 256 := by decide

theorem pgm_read_byte_lcd_font_eq (idx : Int) (h0 : 0 ≤ idx) (h1 : idx < 475) :
    ∃ f, lcd_font[idx.toNat]? = some f ∧ f < 256 ∧ pgm_read_byte_lcd_font idx = some f := by
  have hlt : idx.toNat < lcd_font.length := by rw [lcd_font_length]; omega
  refine ⟨lcd_font[idx.toNat], List.getElem?_eq_getElem hlt,
    lcd_font_bytes _ (List.getElem_mem hlt), ?_⟩
  rw [pgm_read_byte_lcd_font, if_pos h0, List.getElem?_eq_getElem hlt]


theorem lcd_draw_char_glyph_eq (c : Int) (s : State) (h1 : 0x20 ≤ c) (h2 : c ≤ 0x7E) :
    ∃ f0 f1 f2 f3 f4 : Nat,
      (lcd_font[((c - 0x20) * 5 + 0).toNat]? = some f0 ∧
        lcd_font[((c - 0x20) * 5 + 1).toNat]? = some f1 ∧
        lcd_font[((c - 0x20) * 5 + 2).toNat]? = some f2 ∧
        lcd_font[((c - 0x20) * 5 + 3).toNat]? = some f3 ∧
        lcd_font[((c - 0x20) * 5 + 4).toNat]? = some f4) ∧
      (f0 < 256 ∧ f1 < 256 ∧ f2 < 256 ∧ f3 < 256 ∧ f4 < 256) ∧
      lcd_draw_char_glyph c 5 0 s =
        some (lcd_draw_unit f4 f4 f4 f4 (lcd_draw_unit f3 f3 f3 f3 (lcd_draw_unit f2 f2 f2 f2
          (lcd_draw_unit f1 f1 f1 f1 (lcd_draw_unit f0 f0 f0 f0 s))))) := by
  obtain ⟨f0, e0, b0, r0⟩ := pgm_read_byte_lcd_font_eq ((c - 0x20) * 5 + 0) (by omega) (by omega)
  obtain ⟨f1, e1, b1, r1⟩ := pgm_read_byte_lcd_font_eq ((c - 0x20) * 5 + 1) (by omega) (by omega)
  obtain ⟨f2, e2, b2, r2⟩ := pgm_read_byte_lcd_font_eq ((c - 0x20) * 5 + 2) (by omega) (by omega)
  obtain ⟨f3, e3, b3, r3⟩ := pgm_read_byte_lcd_font_eq ((c - 0x20) * 5 + 3) (by omega) (by omega)
  obtain ⟨f4, e4, b4, r4⟩ := pgm_read_byte_lcd_font_eq ((c - 0x20) * 5 + 4) (by omega) (by omega)
  refine ⟨f0, f1, f2, f3, f4, ⟨e0, e1, e2, e3, e4⟩, ⟨b0, b1, b2, b3, b4⟩, ?_⟩
  simp only [lcd_draw_char_glyph, Nat.cast_zero, Nat.cast_one, Nat.cast_ofNat, Nat.zero_add,
    Nat.reduceAdd, r0, r1, r2, r3, r4]

theorem lcd_draw_unit_open_mk (b0 b1 b2 b3 col st : Nat) (tr : List BusEvent) (h : st ≠ 0) :
    lcd_draw_unit b0 b1 b2 b3 ⟨col, st, tr⟩ =
      { lcd_cur_column := (col + 1) % 256
        lcd_draw_started := st
        trace := tr ++ [BusEvent.write (b0 % 256), BusEvent.write (b1 % 256),
          BusEvent.write (b2 % 256), BusEvent.write (b3 % 256)] } :=
  lcd_draw_unit_open b0 b1 b2 b3 ⟨col, st, tr⟩ h

theorem six_units_eq (f0 f1 f2 f3 f4 : Nat) (s : State)
    (b0 : f0 < 256) (b1 : f1 < 256) (b2 : f2 < 256) (b3 : f3 < 256) (b4 : f4 < 256) :
    lcd_draw_unit 0 0 0 0 (lcd_draw_unit f4 f4 f4 f4 (lcd_draw_unit f3 f3 f3 f3
        (lcd_draw_unit f2 f2 f2 f2 (lcd_draw_unit f1 f1 f1 f1 (lcd_draw_unit f0 f0 f0 f0 s))))) =
      { lcd_cur_column := (s.lcd_cur_column + 6) % 256
        lcd_draw_started := if s.lcd_draw_started = 0 then 1 else s.lcd_draw_started
        trace := s.trace ++
          (if s.lcd_draw_started = 0 then [BusEvent.start 0x7E, BusEvent.write 0x40] else []) ++
          [BusEvent.write f0, BusEvent.write f0, BusEvent.write f0, BusEvent.write f0,
            BusEvent.write f1, BusEvent.write f1, BusEvent.write f1, BusEvent.write f1,
            BusEvent.write f2, BusEvent.write f2, BusEvent.write f2, BusEvent.write f2,
            BusEvent.write f3, BusEvent.write f3, BusEvent.write f3, BusEvent.write f3,
            BusEvent.write f4, BusEvent.write f4, BusEvent.write f4, BusEvent.write f4,
            BusEvent.write 0, BusEvent.write 0, BusEvent.write 0, BusEvent.write 0] } := by
  have m0 := Nat.mod_eq_of_lt b0
  have m1 := Nat.mod_eq_of_lt b1
  have m2 := Nat.mod_eq_of_lt b2
  have m3 := Nat.mod_eq_of_lt b3
  have m4 := Nat.mod_eq_of_lt b4
  by_cases hs : s.lcd_draw_started = 0
  · rw [lcd_draw_unit_closed _ _ _ _ s hs, lcd_draw_unit_open _ _ _ _ _ Nat.one_ne_zero,
      lcd_draw_unit_open _ _ _ _ _ Nat.one_ne_zero, lcd_draw_unit_open _ _ _ _ _ Nat.one_ne_zero,
      lcd_draw_unit_open _ _ _ _ _ Nat.one_ne_zero, lcd_draw_unit_open _ _ _ _ _ Nat.one_ne_zero]
    simp only [m0, m1, m2, m3, m4, hs, if_true, State.mk.injEq, true_and]
    refine ⟨by omega, by simp⟩
  · rw [lcd_draw_unit_open _ _ _ _ s hs, lcd_draw_unit_open_mk _ _ _ _ _ _ _ hs,
      lcd_draw_unit_open_mk _ _ _ _ _ _ _ hs, lcd_draw_unit_open_mk _ _ _ _ _ _ _ hs,
      lcd_draw_unit_open_mk _ _ _ _ _ _ _ hs, lcd_draw_unit_open_mk _ _ _ _ _ _ _ hs]
    simp only [m0, m1, m2, m3, m4, hs, if_false, State.mk.injEq, true_and]
    refine ⟨by omega, by simp⟩

theorem lcd_draw_char_printable (cfg : Config) (c : Int) (s : State)
    (h1 : 0x20 ≤ c) (h2 : c ≤ 0x7E) :
    ∃ f0 f1 f2 f3 f4 : Nat,
      (lcd_font[((c - 0x20) * 5 + 0).toNat]? = some f0 ∧
        lcd_font[((c - 0x20) * 5 + 1).toNat]? = some f1 ∧
        lcd_font[((c - 0x20) * 5 + 2).toNat]? = some f2 ∧
        lcd_font[((c - 0x20) * 5 + 3).toNat]? = some f3 ∧
        lcd_font[((c - 0x20) * 5 + 4).toNat]? = some f4) ∧
      lcd_draw_char cfg c s = some
        { lcd_cur_column := (s.lcd_cur_column + 6) % 256
          lcd_draw_started := if s.lcd_draw_started = 0 then 1 else s.lcd_draw_started
          trace := s.trace ++
            (if s.lcd_draw_started = 0 then [BusEvent.start 0x7E, BusEvent.write 0x40]
              else []) ++
            [BusEvent.write f0, BusEvent.write f0, BusEvent.write f0, BusEvent.write f0,
              BusEvent.write f1, BusEvent.write f1, BusEvent.write f1, BusEvent.write f1,
              BusEvent.write f2, BusEvent.write f2, BusEvent.write f2, BusEvent.write f2,
              BusEvent.write f3, BusEvent.write f3, BusEvent.write f3, BusEvent.write f3,
              BusEvent.write f4, BusEvent.write f4, BusEvent.write f4, BusEvent.write f4,
              BusEvent.write 0, BusEvent.write 0, BusEvent.write 0, BusEvent.write 0] } := by
  obtain ⟨f0, f1, f2, f3, f4, hf, ⟨b0, b1, b2, b3, b4⟩, hg⟩ := lcd_draw_char_glyph_eq c s h1 h2
  refine ⟨f0, f1, f2, f3, f4, hf, ?_⟩
  have e5 : FONT_WIDTH - 1 - 0 = 5 := rfl
  rw [lcd_draw_char, if_neg (by omega), if_neg (by omega), if_neg (by omega),
    if_pos (by omega), e5, hg]
  simp only
  rw [six_units_eq f0 f1 f2 f3 f4 s b0 b1 b2 b3 b4]

theorem lcd_draw_char_tab_loop_eq (M : Nat) (s : State) (hs : s.lcd_draw_started ≠ 0) :
    ∃ n, 1 ≤ n ∧ n ≤ 256 - s.lcd_cur_column % 256 ∧
      lcd_draw_char_tab_loop M s =
        { lcd_cur_column := (s.lcd_cur_column + n) % 256
          lcd_draw_started := s.lcd_draw_started
          trace := s.trace ++ List.replicate (4 * n) (BusEvent.write 0) } ∧
      ((s.lcd_cur_column + n) % 256) % M = 0 ∧
      ∀ j, 1 ≤ j → j < n → ((s.lcd_cur_column + j) % 256) % M ≠ 0 := by
  induction s using lcd_draw_char_tab_loop.induct M with
  | case1 x hcont ih =>
    rw [lcd_draw_unit_open _ _ _ _ x hs] at ih hcont
    obtain ⟨n, hn1, hn2, heq, hmod, hmin⟩ := ih hs
    simp only at hn2 heq hmod hmin hcont
    have hne : (x.lcd_cur_column + 1) % 256 ≠ 0 := by
      intro h0
      rw [h0] at hcont
      simp at hcont
    refine ⟨n + 1, by omega, by omega, ?_, ?_, ?_⟩
    · rw [lcd_draw_char_tab_loop, if_pos (by rw [lcd_draw_unit_open _ _ _ _ x hs]; exact hcont),
        lcd_draw_unit_open _ _ _ _ x hs, heq, blank_unit_eq_replicate]
      simp only [List.append_assoc, ← List.replicate_add, State.mk.injEq, true_and]
      refine ⟨by omega, ?_⟩
      congr 2
      omega
    · have e : (x.lcd_cur_column + (n + 1)) % 256 = ((x.lcd_cur_column + 1) % 256 + n) % 256 := by
        omega
      rw [e]
      exact hmod
    · intro j hj1 hj2
      by_cases hj : j = 1
      · subst hj
        exact hcont
      · have e : (x.lcd_cur_column + j) % 256 =
            ((x.lcd_cur_column + 1) % 256 + (j - 1)) % 256 := by omega
        rw [e]
        exact hmin (j - 1) (by omega) (by omega)
  | case2 x hstop =>
    rw [lcd_draw_unit_open _ _ _ _ x hs] at hstop
    simp only [ne_eq, not_not] at hstop
    refine ⟨1, le_refl 1, by omega, ?_, hstop, fun j h1 h2 => absurd h1 (by omega)⟩
    rw [lcd_draw_char_tab_loop, if_neg (by rw [lcd_draw_unit_open _ _ _ _ x hs]; simpa using hstop),
      lcd_draw_unit_open _ _ _ _ x hs, blank_unit_eq_replicate]

theorem lcd_draw_char_tab_unfold (cfg : Config) (s : State) (ht : 0 < cfg.FONT_TAB_SIZE) :
    lcd_draw_char cfg 9 s =
      some (lcd_draw_char_tab_loop (FONT_WIDTH * cfg.FONT_TAB_SIZE)
        (lcd_clear_restofrow_loop 5 s)) := by
  have hM : FONT_WIDTH * cfg.FONT_TAB_SIZE ≠ 0 :=
    Nat.mul_ne_zero (by decide) (by omega)
  rw [lcd_draw_char, if_neg (by decide), if_neg (by decide), if_pos rfl]
  simp only [if_neg hM]
  rfl

theorem lcd_draw_char_tab_eq (cfg : Config) (s : State) (ht : 0 < cfg.FONT_TAB_SIZE) :
    ∃ n, 1 ≤ n ∧ n ≤ 256 ∧
      lcd_draw_char cfg 9 s = some
        { lcd_cur_column := (s.lcd_cur_column + (5 + n)) % 256
          lcd_draw_started := if s.lcd_draw_started = 0 then 1 else s.lcd_draw_started
          trace := s.trace ++
            (if s.lcd_draw_started = 0 then [BusEvent.start 0x7E, BusEvent.write 0x40]
              else []) ++
            List.replicate (4 * (5 + n)) (BusEvent.write 0) } ∧
      ((s.lcd_cur_column + (5 + n)) % 256) % (FONT_WIDTH * cfg.FONT_TAB_SIZE) = 0 ∧
      ∀ j, 1 ≤ j → j < n →
        ((s.lcd_cur_column + (5 + j)) % 256) % (FONT_WIDTH * cfg.FONT_TAB_SIZE) ≠ 0 := by
  rw [lcd_draw_char_tab_unfold cfg s ht]
  have key : ∀ s5 : State, s5.lcd_draw_started ≠ 0 →
      s5.lcd_cur_column = (s.lcd_cur_column + 5) % 256 →
      ∃ n, 1 ≤ n ∧ n ≤ 256 ∧
        lcd_draw_char_tab_loop (FONT_WIDTH * cfg.FONT_TAB_SIZE) s5 =
          { lcd_cur_column := (s.lcd_cur_column + (5 + n)) % 256
            lcd_draw_started := s5.lcd_draw_started
            trace := s5.trace ++ List.replicate (4 * n) (BusEvent.write 0) } ∧
        ((s.lcd_cur_column + (5 + n)) % 256) % (FONT_WIDTH * cfg.FONT_TAB_SIZE) = 0 ∧
        ∀ j, 1 ≤ j → j < n →
          ((s.lcd_cur_column + (5 + j)) % 256) % (FONT_WIDTH * cfg.FONT_TAB_SIZE) ≠ 0 := by
    intro s5 h5 hcol
    obtain ⟨n, hn1, hn2, heq, hmod, hmin⟩ :=
      lcd_draw_char_tab_loop_eq (FONT_WIDTH * cfg.FONT_TAB_SIZE) s5 h5
    have e : ∀ j, (s5.lcd_cur_column + j) % 256 = (s.lcd_cur_column + (5 + j)) % 256 := by
      intro j
      rw [hcol]
      omega
    refine ⟨n, hn1, by omega, ?_, ?_, ?_⟩
    · rw [heq, e]
    · rw [← e]
      exact hmod
    · intro j h1 h2
      rw [← e]
      exact hmin j h1 h2
  have r20 : ∀ n, 4 * (5 + n) = 4 * (4 + 1) + 4 * n := fun n => by ring
  by_cases hs : s.lcd_draw_started = 0
  · obtain ⟨n, hn1, hn2, heq, hmod, hmin⟩ := key (lcd_clear_restofrow_loop 5 s)
      (by rw [lcd_clear_restofrow_loop_closed 4 s hs]; exact Nat.one_ne_zero)
      (by rw [lcd_clear_restofrow_loop_closed 4 s hs])
    refine ⟨n, hn1, hn2, ?_, hmod, hmin⟩
    rw [heq, lcd_clear_restofrow_loop_closed 4 s hs, r20, List.replicate_add]
    simp [hs]
  · obtain ⟨n, hn1, hn2, heq, hmod, hmin⟩ := key (lcd_clear_restofrow_loop 5 s)
      (by rw [lcd_clear_restofrow_loop_open 4 s hs]; exact hs)
      (by rw [lcd_clear_restofrow_loop_open 4 s hs])
    refine ⟨n, hn1, hn2, ?_, hmod, hmin⟩
    rw [heq, lcd_clear_restofrow_loop_open 4 s hs, r20, List.replicate_add]
    simp [hs]

theorem lcd_clear_screen_closed (cfg : Config) (hw : 0 < cfg.LCD_WIDTH) (s : State)
    (hs : s.lcd_draw_started = 0) :
    (lcd_clear_screen cfg s).lcd_draw_started = 0 ∧
    (lcd_clear_screen cfg s).trace = s.trace ++
      (List.range' 0 cfg.LCD_ROWS).flatMap (fun q =>
        [BusEvent.start 0x7E, BusEvent.write 0x00, BusEvent.write ((q % 256) ||| 0xB0),
          BusEvent.write 0x10, BusEvent.write 0x00, BusEvent.stop,
          BusEvent.start 0x7E, BusEvent.write 0x40] ++
        List.replicate (4 * cfg.LCD_WIDTH) (BusEvent.write 0) ++ [BusEvent.stop]) := by
  unfold lcd_clear_screen
  rw [Nat.sub_zero]
  cases cfg.LCD_ROWS with
  | zero => simp [lcd_clear_screen_loop, hs]
  | succ n =>
    rw [lcd_clear_screen_loop_eq cfg hw n 0 s]
    simp [hs]

set_option maxRecDepth 100000 in
theorem lcd_font_glyph_H :
    lcd_font[(((0x48 : Int) - 0x20) * 5 + 0).toNat]? = some 0xFE ∧
    lcd_font[(((0x48 : Int) - 0x20) * 5 + 1).toNat]? = some 0x10 ∧
    lcd_font[(((0x48 : Int) - 0x20) * 5 + 2).toNat]? = some 0x10 ∧
    lcd_font[(((0x48 : Int) - 0x20) * 5 + 3).toNat]? = some 0x10 ∧
    lcd_font[(((0x48 : Int) - 0x20) * 5 + 4).toNat]? = some 0xFE := by
  decide

set_option maxRecDepth 100000 in
theorem lcd_font_glyph_A :
    lcd_font[(((0x41 : Int) - 0x20) * 5 + 0).toNat]? = some 0xF8 ∧
    lcd_font[(((0x41 : Int) - 0x20) * 5 + 1).toNat]? = some 0x24 ∧
    lcd_font[(((0x41 : Int) - 0x20) * 5 + 2).toNat]? = some 0x22 ∧
    lcd_font[(((0x41 : Int) - 0x20) * 5 + 3).toNat]? = some 0x24 ∧
    lcd_font[(((0x41 : Int) - 0x20) * 5 + 4).toNat]? = some 0xF8 := by
  decide

/-! ## Drawing a printable character -/

/-- C1: for every printable character `c` in 0x20 .. 0x7E and every starting
column `k` with `k + 6 ≤ 255`, `lcd_draw_char c` emits exactly six draw units: for
`i = 0 .. 4` the unit `(f_i, f_i, f_i, f_i)` with `f_i = lcd_font[(c - 0x20) * 5 + i]`,
then one blank unit; the column afterwards is `k + 6`.  For the letter A (0x41)
the five glyph bytes are 0xF8, 0x24, 0x22, 0x24, 0xF8. -/
theorem C1_draw_char_printable (cfg : Config) (c : Int) (s : State)
    (h1 : 0x20 ≤ c) (h2 : c ≤ 0x7E) (hk : s.lcd_cur_column + 6 ≤ 255) :
    (∃ f0 f1 f2 f3 f4 : Nat,
      (lcd_font[((c - 0x20) * 5 + 0).toNat]? = some f0 ∧
        lcd_font[((c - 0x20) * 5 + 1).toNat]? = some f1 ∧
        lcd_font[((c - 0x20) * 5 + 2).toNat]? = some f2 ∧
        lcd_font[((c - 0x20) * 5 + 3).toNat]? = some f3 ∧
        lcd_font[((c - 0x20) * 5 + 4).toNat]? = some f4) ∧
      lcd_draw_char cfg c s = some
        { lcd_cur_column := s.lcd_cur_column + 6
          lcd_draw_started := if s.lcd_draw_started = 0 then 1 else s.lcd_draw_started
          trace := s.trace ++
            (if s.lcd_draw_started = 0 then [BusEvent.start 0x7E, BusEvent.write 0x40]
              else []) ++
            [BusEvent.write f0, BusEvent.write f0, BusEvent.write f0, BusEvent.write f0,
              BusEvent.write f1, BusEvent.write f1, BusEvent.write f1, BusEvent.write f1,
              BusEvent.write f2, BusEvent.write f2, BusEvent.write f2, BusEvent.write f2,
              BusEvent.write f3, BusEvent.write f3, BusEvent.write f3, BusEvent.write f3,
              BusEvent.write f4, BusEvent.write f4, BusEvent.write f4, BusEvent.write f4,
              BusEvent.write 0, BusEvent.write 0, BusEvent.write 0, BusEvent.write 0] }) ∧
    (lcd_font[(((0x41 : Int) - 0x20) * 5 + 0).toNat]? = some 0xF8 ∧
      lcd_font[(((0x41 : Int) - 0x20) * 5 + 1).toNat]? = some 0x24 ∧
      lcd_font[(((0x41 : Int) - 0x20) * 5 + 2).toNat]? = some 0x22 ∧
      lcd_font[(((0x41 : Int) - 0x20) * 5 + 3).toNat]? = some 0x24 ∧
      lcd_font[(((0x41 : Int) - 0x20) * 5 + 4).toNat]? = some 0xF8) := by
  refine ⟨?_, lcd_font_glyph_A⟩
  obtain ⟨f0, f1, f2, f3, f4, hf, hd⟩ := lcd_draw_char_printable cfg c s h1 h2
  refine ⟨f0, f1, f2, f3, f4, hf, ?_⟩
  rw [hd, Nat.mod_eq_of_lt (by omega)]

theorem C1_draw_char_printable_witness :
    lcd_draw_char ⟨160, 13, 4⟩ 0x41 ⟨12, 0, []⟩ = some
      { lcd_cur_column := 18
        lcd_draw_started := 1
        trace :=
          [BusEvent.start 0x7E, BusEvent.write 0x40,
            BusEvent.write 0xF8, BusEvent.write 0xF8, BusEvent.write 0xF8, BusEvent.write 0xF8,
            BusEvent.write 0x24, BusEvent.write 0x24, BusEvent.write 0x24, BusEvent.write 0x24,
            BusEvent.write 0x22, BusEvent.write 0x22, BusEvent.write 0x22, BusEvent.write 0x22,
            BusEvent.write 0x24, BusEvent.write 0x24, BusEvent.write 0x24, BusEvent.write 0x24,
            BusEvent.write 0xF8, BusEvent.write 0xF8, BusEvent.write 0xF8, BusEvent.write 0xF8,
            BusEvent.write 0, BusEvent.write 0, BusEvent.write 0, BusEvent.write 0] } := by
  obtain ⟨⟨f0, f1, f2, f3, f4, ⟨e0, e1, e2, e3, e4⟩, hd⟩, g0, g1, g2, g3, g4⟩ :=
    C1_draw_char_printable ⟨160, 13, 4⟩ 0x41 ⟨12, 0, []⟩ (by decide) (by decide) (by decide)
  rw [g0] at e0
  rw [g1] at e1
  rw [g2] at e2
  rw [g3] at e3
  rw [g4] at e4
  cases e0
  cases e1
  cases e2
  cases e3
  cases e4
  rw [hd]
  rfl

/-! ## Clearing the rest of a row -/

/-- C2: from any column `c ≤ LCD_WIDTH` (with `LCD_WIDTH ≤ 255`) and either
session state, `lcd_clear_restofrow` writes exactly `LCD_WIDTH - c` blank units
(four zero bytes each), ends with the session closed and the column at
`LCD_WIDTH`; from a closed session with at least one unit to draw the units are
framed by one data-mode opening (start, 0x40) and one stop. -/
theorem C2_clear_restofrow_units (cfg : Config) (s : State)
    (hc : s.lcd_cur_column ≤ cfg.LCD_WIDTH) (hw : cfg.LCD_WIDTH ≤ 255) :
    lcd_clear_restofrow cfg s =
      { lcd_cur_column := cfg.LCD_WIDTH
        lcd_draw_started := 0
        trace := s.trace ++
          (if s.lcd_draw_started = 0 ∧ s.lcd_cur_column < cfg.LCD_WIDTH then
            [BusEvent.start 0x7E, BusEvent.write 0x40] else []) ++
          List.replicate (4 * (cfg.LCD_WIDTH - s.lcd_cur_column)) (BusEvent.write 0) ++
          (if s.lcd_draw_started ≠ 0 ∨ s.lcd_cur_column < cfg.LCD_WIDTH then
            [BusEvent.stop] else []) } := by
  rw [lcd_clear_restofrow_eq]
  simp only [State.mk.injEq, and_true]
  split
  · rw [Nat.add_sub_cancel' hc]
    exact Nat.mod_eq_of_lt (by omega)
  · omega

theorem C2_clear_restofrow_units_witness :
    lcd_clear_restofrow ⟨160, 13, 4⟩ ⟨157, 0, []⟩ =
      { lcd_cur_column := 160
        lcd_draw_started := 0
        trace := [] ++
          (if (0 : Nat) = 0 ∧ 157 < 160 then
            [BusEvent.start 0x7E, BusEvent.write 0x40] else []) ++
          List.replicate (4 * (160 - 157)) (BusEvent.write 0) ++
          (if (0 : Nat) ≠ 0 ∨ 157 < 160 then [BusEvent.stop] else []) } :=
  C2_clear_restofrow_units ⟨160, 13, 4⟩ ⟨157, 0, []⟩ (by decide) (by decide)

/-! ## Positioning commands -/

/-- C3: for every row `r` that fits the `uint8_t` argument (in particular every
row in `0 .. LCD_ROWS - 1`), `lcd_set_row r` from a closed session emits one
write transaction to device 0x3F (address byte `(0x3F << 1) | 0 = 0x7E`) with
payload `[0x00, r | 0xB0]` and then a stop; the column is unchanged and the
session stays closed. -/
theorem C3_set_row_closed (r : Nat) (s : State) (hr : r < 256)
    (hs : s.lcd_draw_started = 0) :
    lcd_set_row r s =
      { lcd_cur_column := s.lcd_cur_column
        lcd_draw_started := 0
        trace := s.trace ++
          [BusEvent.start ((0x3F <<< 1) ||| 0), BusEvent.write 0x00,
            BusEvent.write (r ||| 0xB0), BusEvent.stop] } ∧
    ((0x3F <<< 1) ||| 0 : Nat) = 0x7E := by
  rw [lcd_set_row_eq, Nat.mod_eq_of_lt (row_byte_lt r hr)]
  simp [hs]

theorem C3_set_row_closed_witness :
    lcd_set_row 12 ⟨5, 0, []⟩ =
      { lcd_cur_column := 5
        lcd_draw_started := 0
        trace := [] ++
          [BusEvent.start ((0x3F <<< 1) ||| 0), BusEvent.write 0x00,
            BusEvent.write (12 ||| 0xB0), BusEvent.stop] } ∧
    ((0x3F <<< 1) ||| 0 : Nat) = 0x7E :=
  C3_set_row_closed 12 ⟨5, 0, []⟩ (by decide) rfl

/-- C4: for every column `c`, `lcd_set_column c` from a closed session emits one
write transaction with payload
`[0x00, ((c & 0xF0) >> 4) | 0x10, (c & 0x0F) | 0x00]` and then a stop; afterwards
the column is `c` and the session is closed. -/
theorem C4_set_column_closed (c : Nat) (s : State) (hs : s.lcd_draw_started = 0) :
    lcd_set_column c s =
      { lcd_cur_column := c
        lcd_draw_started := 0
        trace := s.trace ++
          [BusEvent.start 0x7E, BusEvent.write 0x00,
            BusEvent.write (((c &&& 0xF0) >>> 4) ||| 0x10),
            BusEvent.write ((c &&& 0x0F) ||| 0x00), BusEvent.stop] } := by
  rw [lcd_set_column_eq]
  simp [hs]

theorem C4_set_column_closed_witness :
    lcd_set_column 0x9F ⟨3, 0, []⟩ =
      { lcd_cur_column := 0x9F
        lcd_draw_started := 0
        trace := [] ++
          [BusEvent.start 0x7E, BusEvent.write 0x00,
            BusEvent.write (((0x9F &&& 0xF0) >>> 4) ||| 0x10),
            BusEvent.write ((0x9F &&& 0x0F) ||| 0x00), BusEvent.stop] } :=
  C4_set_column_closed 0x9F ⟨3, 0, []⟩ rfl

/-- C5: each of `lcd_set_row`, `lcd_set_column` and `lcd_set_row_column`, for
every argument, emits a stop first exactly when the draw session is open, then
the command-mode start, the command bytes and the closing stop; the session is
closed afterwards.  So no command byte is written inside an open data-mode
transaction, and from a closed session no extra stop is emitted. -/
theorem C5_reposition_closes_session (r c : Nat) (s : State) :
    lcd_set_row r s =
      { lcd_cur_column := s.lcd_cur_column
        lcd_draw_started := 0
        trace := s.trace ++ (if s.lcd_draw_started ≠ 0 then [BusEvent.stop] else []) ++
          [BusEvent.start 0x7E, BusEvent.write 0x00, BusEvent.write ((r ||| 0xB0) % 256),
            BusEvent.stop] } ∧
    lcd_set_column c s =
      { lcd_cur_column := c
        lcd_draw_started := 0
        trace := s.trace ++ (if s.lcd_draw_started ≠ 0 then [BusEvent.stop] else []) ++
          [BusEvent.start 0x7E, BusEvent.write 0x00,
            BusEvent.write (((c &&& 0xF0) >>> 4) ||| 0x10), BusEvent.write (c &&& 0x0F),
            BusEvent.stop] } ∧
    lcd_set_row_column r c s =
      { lcd_cur_column := c
        lcd_draw_started := 0
        trace := s.trace ++ (if s.lcd_draw_started ≠ 0 then [BusEvent.stop] else []) ++
          [BusEvent.start 0x7E, BusEvent.write 0x00, BusEvent.write ((r ||| 0xB0) % 256),
            BusEvent.write (((c &&& 0xF0) >>> 4) ||| 0x10), BusEvent.write (c &&& 0x0F),
            BusEvent.stop] } := by
  rw [lcd_set_row_eq, lcd_set_column_eq, lcd_set_row_column_eq]
  by_cases hs : s.lcd_draw_started = 0 <;> simp [hs]

/-! ## Drawing a tab -/

/-- C6: for every starting column and every `FONT_TAB_SIZE ≥ 1`,
`lcd_draw_char` of a tab (code 9) emits only blank units, `n ≥ 5` of them
whatever the starting alignment, and stops with the new column a multiple of
`6 * FONT_TAB_SIZE`; the new column is the old one plus `n` in 8 bits, which is
`k + n` itself when the counter does not wrap. -/
theorem C6_draw_char_tab (cfg : Config) (s : State) (ht : 1 ≤ cfg.FONT_TAB_SIZE) :
    ∃ n, 5 ≤ n ∧
      lcd_draw_char cfg 9 s = some
        { lcd_cur_column := (s.lcd_cur_column + n) % 256
          lcd_draw_started := if s.lcd_draw_started = 0 then 1 else s.lcd_draw_started
          trace := s.trace ++
            (if s.lcd_draw_started = 0 then [BusEvent.start 0x7E, BusEvent.write 0x40]
              else []) ++
            List.replicate (4 * n) (BusEvent.write 0) } ∧
      ((s.lcd_cur_column + n) % 256) % (6 * cfg.FONT_TAB_SIZE) = 0 ∧
      (s.lcd_cur_column + n ≤ 255 → (s.lcd_cur_column + n) % 256 = s.lcd_cur_column + n) := by
  obtain ⟨n, hn1, _, heq, hmod, _⟩ := lcd_draw_char_tab_eq cfg s ht
  exact ⟨5 + n, by omega, heq, hmod, fun h => Nat.mod_eq_of_lt (by omega)⟩

theorem C6_draw_char_tab_witness :
    ∃ n, 5 ≤ n ∧
      lcd_draw_char ⟨160, 13, 4⟩ 9 ⟨30, 1, []⟩ = some
        { lcd_cur_column := (30 + n) % 256
          lcd_draw_started := if (1 : Nat) = 0 then 1 else 1
          trace := [] ++
            (if (1 : Nat) = 0 then [BusEvent.start 0x7E, BusEvent.write 0x40] else []) ++
            List.replicate (4 * n) (BusEvent.write 0) } ∧
      ((30 + n) % 256) % (6 * 4) = 0 ∧
      (30 + n ≤ 255 → (30 + n) % 256 = 30 + n) :=
  C6_draw_char_tab ⟨160, 13, 4⟩ ⟨30, 1, []⟩ (by decide)

/-! ## Clearing the screen -/

/-- C7: `lcd_clear_screen` performs `lcd_clear_row r 0` once for each row
`r = 0, 1, .., LCD_ROWS - 1` in ascending order.  From any state its trace is the
optional stop that closes an open session, then for each row a command
transaction with payload `[0x00, r | 0xB0, 0x10, 0x00]` and a data-mode
transaction with `LCD_WIDTH` blank units (`4 * LCD_WIDTH` zero bytes); it ends
with the session closed.  The display has at least one column and between 1 and
256 rows. -/
theorem C7_clear_screen_rows (cfg : Config) (s : State)
    (hw : 0 < cfg.LCD_WIDTH) (hr0 : 0 < cfg.LCD_ROWS) (hr : cfg.LCD_ROWS ≤ 256) :
    lcd_clear_screen cfg s =
      (List.range cfg.LCD_ROWS).foldl (fun st r => lcd_clear_row cfg r 0 st) s ∧
    lcd_clear_screen cfg s =
      { lcd_cur_column := cfg.LCD_WIDTH % 256
        lcd_draw_started := 0
        trace := s.trace ++ (if s.lcd_draw_started ≠ 0 then [BusEvent.stop] else []) ++
          (List.range cfg.LCD_ROWS).flatMap (fun r =>
            [BusEvent.start 0x7E, BusEvent.write 0x00, BusEvent.write (r ||| 0xB0),
              BusEvent.write 0x10, BusEvent.write 0x00, BusEvent.stop,
              BusEvent.start 0x7E, BusEvent.write 0x40] ++
            List.replicate (4 * cfg.LCD_WIDTH) (BusEvent.write 0) ++ [BusEvent.stop]) } := by
  constructor
  · rw [lcd_clear_screen, lcd_clear_screen_loop_foldl, List.range_eq_range', Nat.sub_zero]
  · obtain ⟨n, hn⟩ : ∃ n, cfg.LCD_ROWS = n + 1 := ⟨_, (Nat.succ_pred_eq_of_pos hr0).symm⟩
    rw [← flatMap_range_rows cfg cfg.LCD_ROWS hr, lcd_clear_screen, Nat.sub_zero, hn,
      lcd_clear_screen_loop_eq cfg hw n 0 s]

theorem C7_clear_screen_rows_witness :
    lcd_clear_screen ⟨160, 13, 4⟩ ⟨7, 1, []⟩ =
      (List.range 13).foldl (fun st r => lcd_clear_row ⟨160, 13, 4⟩ r 0 st) ⟨7, 1, []⟩ ∧
    lcd_clear_screen ⟨160, 13, 4⟩ ⟨7, 1, []⟩ =
      { lcd_cur_column := 160 % 256
        lcd_draw_started := 0
        trace := [] ++ (if (1 : Nat) ≠ 0 then [BusEvent.stop] else []) ++
          (List.range 13).flatMap (fun r =>
            [BusEvent.start 0x7E, BusEvent.write 0x00, BusEvent.write (r ||| 0xB0),
              BusEvent.write 0x10, BusEvent.write 0x00, BusEvent.stop,
              BusEvent.start 0x7E, BusEvent.write 0x40] ++
            List.replicate (4 * 160) (BusEvent.write 0) ++ [BusEvent.stop]) } :=
  C7_clear_screen_rows ⟨160, 13, 4⟩ ⟨7, 1, []⟩ (by decide) (by decide) (by decide)

/-! ## Scenario: init, clear, position, draw -/

/-- C8: `lcd_init`, then `lcd_clear_screen`, then `lcd_set_row_column 0 0`, then
`lcd_draw_char` of the letter H, from any state: the trace is the full init
sequence, then `LCD_ROWS` row-clear sequences, then the positioning command,
then a data-mode transaction with 0x40, the glyph columns 0xFE, 0x10, 0x10, 0x10,
0xFE each four times, and four 0x00 bytes; the column ends at 6 and the session
is open.  The display has at least one column and at most 256 rows. -/
theorem C8_init_clear_draw_H (cfg : Config) (s : State)
    (hw : 0 < cfg.LCD_WIDTH) (hr : cfg.LCD_ROWS ≤ 256) :
    lcd_draw_char cfg 0x48 (lcd_set_row_column 0 0 (lcd_clear_screen cfg (lcd_init s))) =
      some
        { lcd_cur_column := 6
          lcd_draw_started := 1
          trace := s.trace ++
            ([BusEvent.start 0x7E, BusEvent.write 0x00,
              BusEvent.write 0x48, BusEvent.write 0x64, BusEvent.write 0xA0,
              BusEvent.write 0xC8, BusEvent.write 0x44, BusEvent.write 0x00,
              BusEvent.write 0xAB, BusEvent.write 0x26, BusEvent.write 0x81,
              BusEvent.write 0x15, BusEvent.write 0x56, BusEvent.write 0x64,
              BusEvent.write 0x2C, BusEvent.write 0x66, BusEvent.write 0x2E,
              BusEvent.write 0x2F, BusEvent.write 0xF3, BusEvent.write 0x00,
              BusEvent.write 0x96, BusEvent.write 0x38, BusEvent.write 0x75,
              BusEvent.write 0x97] ++
              (List.range 64).flatMap (fun n =>
                [BusEvent.write (0x80 + n), BusEvent.write (n / 4 * 4)]) ++
              [BusEvent.write 0x38, BusEvent.write 0x74, BusEvent.write 0xAF,
                BusEvent.stop]) ++
            (List.range cfg.LCD_ROWS).flatMap (fun r =>
              [BusEvent.start 0x7E, BusEvent.write 0x00, BusEvent.write (r ||| 0xB0),
                BusEvent.write 0x10, BusEvent.write 0x00, BusEvent.stop,
                BusEvent.start 0x7E, BusEvent.write 0x40] ++
              List.replicate (4 * cfg.LCD_WIDTH) (BusEvent.write 0) ++ [BusEvent.stop]) ++
            [BusEvent.start 0x7E, BusEvent.write 0x00, BusEvent.write 0xB0,
              BusEvent.write 0x10, BusEvent.write 0x00, BusEvent.stop] ++
            [BusEvent.start 0x7E, BusEvent.write 0x40,
              BusEvent.write 0xFE, BusEvent.write 0xFE, BusEvent.write 0xFE, BusEvent.write 0xFE,
              BusEvent.write 0x10, BusEvent.write 0x10, BusEvent.write 0x10, BusEvent.write 0x10,
              BusEvent.write 0x10, BusEvent.write 0x10, BusEvent.write 0x10, BusEvent.write 0x10,
              BusEvent.write 0x10, BusEvent.write 0x10, BusEvent.write 0x10, BusEvent.write 0x10,
              BusEvent.write 0xFE, BusEvent.write 0xFE, BusEvent.write 0xFE, BusEvent.write 0xFE,
              BusEvent.write 0x00, BusEvent.write 0x00, BusEvent.write 0x00,
              BusEvent.write 0x00] } := by
  obtain ⟨hst, htr⟩ := lcd_clear_screen_closed cfg hw (lcd_init s) (by rw [lcd_init_eq])
  rw [flatMap_range_rows cfg cfg.LCD_ROWS hr] at htr
  obtain ⟨f0, f1, f2, f3, f4, ⟨e0, e1, e2, e3, e4⟩, hdraw⟩ :=
    lcd_draw_char_printable cfg 0x48
      (lcd_set_row_column 0 0 (lcd_clear_screen cfg (lcd_init s))) (by decide) (by decide)
  obtain ⟨g0, g1, g2, g3, g4⟩ := lcd_font_glyph_H
  rw [g0] at e0
  rw [g1] at e1
  rw [g2] at e2
  rw [g3] at e3
  rw [g4] at e4
  cases e0
  cases e1
  cases e2
  cases e3
  cases e4
  rw [hdraw, lcd_set_row_column_eq, hst, htr, lcd_init_eq]
  simp

theorem C8_init_clear_draw_H_witness :
    0 < (160 : Nat) ∧ (13 : Nat) ≤ 256 ∧ ∃ t, lcd_draw_char ⟨160, 13, 4⟩ 0x48
        (lcd_set_row_column 0 0 (lcd_clear_screen ⟨160, 13, 4⟩ (lcd_init ⟨0, 0, []⟩))) =
      some { lcd_cur_column := 6, lcd_draw_started := 1, trace := t } :=
  ⟨by decide, by decide,
    _, C8_init_clear_draw_H ⟨160, 13, 4⟩ ⟨0, 0, []⟩ (by decide) (by decide)⟩

/-! ## Drawing one unit -/

/-- C9 as stated fails: at column 255 a draw unit leaves the column at 0, not
at 256. -/
theorem C9_column_wraps_at_255 :
    (lcd_draw_unit 0 0 0 0 ⟨255, 0, []⟩).lcd_cur_column = 0 ∧
    (lcd_draw_unit 0 0 0 0 ⟨255, 0, []⟩).lcd_cur_column ≠ 255 + 1 := by
  decide

/-- C9, amended: for all bytes `b0 .. b3`, `lcd_draw_unit` from a closed session
first opens a data-mode transaction (start with address byte 0x7E, then 0x40)
and then writes `b0, b1, b2, b3`; from an open session it writes only those four
bytes.  No stop is emitted, the session is open afterwards, and the column is
incremented by one modulo 256 (an 8-bit counter): by exactly one from a
column below 255. -/
theorem C9_draw_unit (b0 b1 b2 b3 : Nat) (s : State)
    (h0 : b0 < 256) (h1 : b1 < 256) (h2 : b2 < 256) (h3 : b3 < 256) :
    lcd_draw_unit b0 b1 b2 b3 s =
      { lcd_cur_column := (s.lcd_cur_column + 1) % 256
        lcd_draw_started := if s.lcd_draw_started = 0 then 1 else s.lcd_draw_started
        trace := s.trace ++
          (if s.lcd_draw_started = 0 then [BusEvent.start 0x7E, BusEvent.write 0x40] else []) ++
          [BusEvent.write b0, BusEvent.write b1, BusEvent.write b2, BusEvent.write b3] } ∧
    (lcd_draw_unit b0 b1 b2 b3 s).lcd_draw_started ≠ 0 ∧
    (s.lcd_cur_column < 255 →
      (lcd_draw_unit b0 b1 b2 b3 s).lcd_cur_column = s.lcd_cur_column + 1) := by
  by_cases hs : s.lcd_draw_started = 0
  · rw [lcd_draw_unit_closed _ _ _ _ s hs]
    simp only [Nat.mod_eq_of_lt h0, Nat.mod_eq_of_lt h1, Nat.mod_eq_of_lt h2,
      Nat.mod_eq_of_lt h3]
    exact ⟨by simp [hs], by simp, fun h => Nat.mod_eq_of_lt (by omega)⟩
  · rw [lcd_draw_unit_open _ _ _ _ s hs]
    simp only [Nat.mod_eq_of_lt h0, Nat.mod_eq_of_lt h1, Nat.mod_eq_of_lt h2,
      Nat.mod_eq_of_lt h3]
    exact ⟨by simp [hs], hs, fun h => Nat.mod_eq_of_lt (by omega)⟩

theorem C9_draw_unit_witness :
    lcd_draw_unit 0xFE 0x10 0x00 0xFF ⟨254, 0, []⟩ =
      { lcd_cur_column := (254 + 1) % 256
        lcd_draw_started := if (0 : Nat) = 0 then 1 else 0
        trace := [] ++
          (if (0 : Nat) = 0 then [BusEvent.start 0x7E, BusEvent.write 0x40] else []) ++
          [BusEvent.write 0xFE, BusEvent.write 0x10, BusEvent.write 0x00,
            BusEvent.write 0xFF] } ∧
    (lcd_draw_unit 0xFE 0x10 0x00 0xFF ⟨254, 0, []⟩).lcd_draw_started ≠ 0 ∧
    ((254 : Nat) < 255 →
      (lcd_draw_unit 0xFE 0x10 0x00 0xFF ⟨254, 0, []⟩).lcd_cur_column = 254 + 1) :=
  C9_draw_unit 0xFE 0x10 0x00 0xFF ⟨254, 0, []⟩ (by decide) (by decide) (by decide) (by decide)

/-! ## Combined positioning -/

/-- C10: for every row `r` and column `c` (8-bit arguments) and either session
state, `lcd_set_row_column r c` reaches the same final column and session state
as `lcd_set_row r` followed by `lcd_set_column c`, and its single command
transaction carries `[0x00, r | 0xB0, ((c & 0xF0) >> 4) | 0x10, c & 0x0F]`: the
two-call trace without the intermediate stop, start and 0x00. -/
theorem C10_set_row_column_combined (r c : Nat) (s : State) (hr : r < 256) :
    lcd_set_row_column r c s =
      { lcd_cur_column := c
        lcd_draw_started := 0
        trace := s.trace ++ (if s.lcd_draw_started ≠ 0 then [BusEvent.stop] else []) ++
          [BusEvent.start 0x7E, BusEvent.write 0x00, BusEvent.write (r ||| 0xB0)] ++
          [BusEvent.write (((c &&& 0xF0) >>> 4) ||| 0x10), BusEvent.write (c &&& 0x0F),
            BusEvent.stop] } ∧
    lcd_set_column c (lcd_set_row r s) =
      { lcd_cur_column := c
        lcd_draw_started := 0
        trace := s.trace ++ (if s.lcd_draw_started ≠ 0 then [BusEvent.stop] else []) ++
          [BusEvent.start 0x7E, BusEvent.write 0x00, BusEvent.write (r ||| 0xB0)] ++
          [BusEvent.stop, BusEvent.start 0x7E, BusEvent.write 0x00] ++
          [BusEvent.write (((c &&& 0xF0) >>> 4) ||| 0x10), BusEvent.write (c &&& 0x0F),
            BusEvent.stop] } ∧
    (lcd_set_row_column r c s).lcd_cur_column =
      (lcd_set_column c (lcd_set_row r s)).lcd_cur_column ∧
    (lcd_set_row_column r c s).lcd_draw_started =
      (lcd_set_column c (lcd_set_row r s)).lcd_draw_started := by
  rw [lcd_set_column_eq, lcd_set_row_eq, lcd_set_row_column_eq,
    Nat.mod_eq_of_lt (row_byte_lt r hr)]
  by_cases hs : s.lcd_draw_started = 0 <;> simp [hs]

theorem C10_set_row_column_combined_witness :
    lcd_set_row_column 3 0x25 ⟨7, 1, []⟩ =
      { lcd_cur_column := 0x25
        lcd_draw_started := 0
        trace := [] ++ (if (1 : Nat) ≠ 0 then [BusEvent.stop] else []) ++
          [BusEvent.start 0x7E, BusEvent.write 0x00, BusEvent.write (3 ||| 0xB0)] ++
          [BusEvent.write (((0x25 &&& 0xF0) >>> 4) ||| 0x10), BusEvent.write (0x25 &&& 0x0F),
            BusEvent.stop] } ∧
    lcd_set_column 0x25 (lcd_set_row 3 ⟨7, 1, []⟩) =
      { lcd_cur_column := 0x25
        lcd_draw_started := 0
        trace := [] ++ (if (1 : Nat) ≠ 0 then [BusEvent.stop] else []) ++
          [BusEvent.start 0x7E, BusEvent.write 0x00, BusEvent.write (3 ||| 0xB0)] ++
          [BusEvent.stop, BusEvent.start 0x7E, BusEvent.write 0x00] ++
          [BusEvent.write (((0x25 &&& 0xF0) >>> 4) ||| 0x10), BusEvent.write (0x25 &&& 0x0F),
            BusEvent.stop] } ∧
    (lcd_set_row_column 3 0x25 ⟨7, 1, []⟩).lcd_cur_column =
      (lcd_set_column 0x25 (lcd_set_row 3 ⟨7, 1, []⟩)).lcd_cur_column ∧
    (lcd_set_row_column 3 0x25 ⟨7, 1, []⟩).lcd_draw_started =
      (lcd_set_column 0x25 (lcd_set_row 3 ⟨7, 1, []⟩)).lcd_draw_started :=
  C10_set_row_column_combined 3 0x25 ⟨7, 1, []⟩ (by decide)

/-! ## Newline, carriage return and null -/

theorem clear_restofrow_emitted_no_command (started col width : Nat)
    (pre post : List BusEvent) (a : Nat)
    (h : (if started = 0 ∧ col < width then
            [BusEvent.start 0x7E, BusEvent.write 0x40] else []) ++
          List.replicate (4 * (width - col)) (BusEvent.write 0) ++
          (if started ≠ 0 ∨ col < width then [BusEvent.stop] else []) =
        pre ++ BusEvent.start a :: post) :
    ∃ post', post = BusEvent.write 0x40 :: post' := by
  have hmem : ∀ n (tl : List BusEvent), (∀ e ∈ tl, e = BusEvent.stop) →
      BusEvent.start a ∉ List.replicate n (BusEvent.write 0) ++ tl := by
    intro n tl htl hin
    rcases List.mem_append.mp hin with h1 | h1
    · have := (List.mem_replicate.mp h1).2
      cases this
    · have := htl _ h1
      cases this
  have htail : ∀ e ∈ (if started ≠ 0 ∨ col < width then [BusEvent.stop] else []),
      e = BusEvent.stop := by
    intro e he
    split at he <;> simp at he
    exact he
  by_cases hc : started = 0 ∧ col < width
  · rw [if_pos hc] at h
    cases pre with
    | nil =>
      simp only [List.nil_append, List.cons_append, List.cons.injEq] at h
      exact ⟨_, h.2.symm⟩
    | cons x pre' =>
      cases pre' with
      | nil =>
        simp at h
      | cons y pre'' =>
        simp only [List.cons_append, List.cons.injEq, List.nil_append, List.append_assoc] at h
        exfalso
        apply hmem (4 * (width - col)) _ htail
        rw [h.2.2]
        simp
  · rw [if_neg hc] at h
    exfalso
    apply hmem (4 * (width - col)) _ htail
    simp only [List.nil_append] at h
    rw [h]
    simp

theorem row_byte_not_data (r : Nat) : r ||| 0xB0 ≠ 0x40 ∧ r ||| 0xB0 ≠ 0 := by
  have h7 : (r ||| 0xB0).testBit 7 = true := by
    rw [Nat.testBit_or]
    have : Nat.testBit 0xB0 7 = true := by decide
    simp [this]
  constructor
  · intro h
    rw [h] at h7
    revert h7
    decide
  · intro h
    rw [h] at h7
    revert h7
    decide

/-- C11: in every state `lcd_draw_char` of a newline (code 10) is
`lcd_clear_restofrow`: same trace, same final state.  What it emits is only the
optional data-mode opening, zero bytes and the optional stop: every start in it
is followed by 0x40 (data mode), never by the command byte 0x00, and no
row-select byte `r | 0xB0` is written. -/
theorem C11_newline_is_clear_restofrow (cfg : Config) (s : State) :
    lcd_draw_char cfg 10 s = some (lcd_clear_restofrow cfg s) ∧
    ∃ emitted,
      (lcd_clear_restofrow cfg s).trace = s.trace ++ emitted ∧
      emitted =
        (if s.lcd_draw_started = 0 ∧ s.lcd_cur_column < cfg.LCD_WIDTH then
          [BusEvent.start 0x7E, BusEvent.write 0x40] else []) ++
        List.replicate (4 * (cfg.LCD_WIDTH - s.lcd_cur_column)) (BusEvent.write 0) ++
        (if s.lcd_draw_started ≠ 0 ∨ s.lcd_cur_column < cfg.LCD_WIDTH then
          [BusEvent.stop] else []) ∧
      (∀ (pre post : List BusEvent) (a : Nat), emitted = pre ++ BusEvent.start a :: post →
        ∃ post', post = BusEvent.write 0x40 :: post') ∧
      (∀ r : Nat, BusEvent.write (r ||| 0xB0) ∉ emitted) := by
  refine ⟨by rw [lcd_draw_char, if_pos rfl], _, ?_, rfl, ?_, ?_⟩
  · rw [lcd_clear_restofrow_eq]
    simp only [List.append_assoc]
  · intro pre post a h
    exact clear_restofrow_emitted_no_command _ _ _ pre post a h
  · intro r hin
    obtain ⟨hr1, hr2⟩ := row_byte_not_data r
    simp only [List.mem_append, List.mem_replicate] at hin
    rcases hin with (h1 | h1) | h1
    · split at h1
      · simp at h1
        exact hr1 h1
      · simp at h1
    · have := h1.2
      simp at this
      exact hr2 this
    · split at h1 <;> simp at h1

/-- C12: for a carriage return (code 13) and for null (code 0) `lcd_draw_char`
does nothing in every state: no bus event, column and session flag unchanged. -/
theorem C12_cr_and_null_do_nothing (cfg : Config) (s : State) :
    lcd_draw_char cfg 13 s = some s ∧ lcd_draw_char cfg 0 s = some s := by
  constructor
  · rw [lcd_draw_char, if_neg (by decide), if_pos rfl]
  · rw [lcd_draw_char, if_neg (by decide), if_neg (by decide), if_neg (by decide),
      if_neg (by decide)]

/-! ## The init byte sequence -/

set_option maxRecDepth 100000 in
theorem grey_entries_by_level :
    (List.range 64).flatMap (fun n =>
        [BusEvent.write (0x80 + n), BusEvent.write (n / 4 * 4)]) =
      (List.range 16).flatMap (fun level =>
        (List.range 4).flatMap (fun offset =>
          [BusEvent.write (0x80 + 4 * level + offset), BusEvent.write (level * 4)])) := by
  decide

set_option maxRecDepth 100000 in
theorem grey_entries_facts :
    ((List.range 16).flatMap (fun level =>
        (List.range 4).flatMap (fun offset =>
          [BusEvent.write (0x80 + 4 * level + offset), BusEvent.write (level * 4)]))).length
      = 128 ∧
    (List.range 16).flatMap (fun level =>
        (List.range 4).map (fun offset => 0x80 + 4 * level + offset)) =
      List.range' 0x80 64 ∧
    (List.range 16).all (fun level =>
      decide (level * 4 % 4 = 0 ∧ level * 4 ≤ 60 ∧ level * 4 % 256 = level * 4)) = true ∧
    (List.range 16).all (fun level => (List.range 4).all (fun offset =>
      decide ((0x80 + 4 * level + offset) % 256 = 0x80 + 4 * level + offset))) = true := by
  decide

/-- C13: the bytes written by `lcd_init` contain, in one piece after the 23
fixed bytes, the greyscale ramp of 64 entries (16 levels, 4 registers each, 128
bytes): entry `4 * level + offset` is the address byte `0x80 + 4 * level + offset`
followed by the value byte `level * 4`.  The addresses are 0x80 .. 0xBF in
ascending order, each once; every value is a multiple of 4 in 0 .. 60; no byte
is changed by the conversion to 8 bits. -/
theorem C13_init_greyscale_ramp (s : State) :
    (lcd_init s).trace =
      s.trace ++
        [BusEvent.start 0x7E, BusEvent.write 0x00,
          BusEvent.write 0x48, BusEvent.write 0x64, BusEvent.write 0xA0, BusEvent.write 0xC8,
          BusEvent.write 0x44, BusEvent.write 0x00, BusEvent.write 0xAB, BusEvent.write 0x26,
          BusEvent.write 0x81, BusEvent.write 0x15, BusEvent.write 0x56, BusEvent.write 0x64,
          BusEvent.write 0x2C, BusEvent.write 0x66, BusEvent.write 0x2E, BusEvent.write 0x2F,
          BusEvent.write 0xF3, BusEvent.write 0x00, BusEvent.write 0x96, BusEvent.write 0x38,
          BusEvent.write 0x75, BusEvent.write 0x97] ++
        (List.range 16).flatMap (fun level =>
          (List.range 4).flatMap (fun offset =>
            [BusEvent.write (0x80 + 4 * level + offset), BusEvent.write (level * 4)])) ++
        [BusEvent.write 0x38, BusEvent.write 0x74, BusEvent.write 0xAF, BusEvent.stop] ∧
    ((List.range 16).flatMap (fun level =>
        (List.range 4).flatMap (fun offset =>
          [BusEvent.write (0x80 + 4 * level + offset), BusEvent.write (level * 4)]))).length
      = 128 ∧
    (List.range 16).flatMap (fun level =>
        (List.range 4).map (fun offset => 0x80 + 4 * level + offset)) =
      List.range' 0x80 64 ∧
    (List.range 16).all (fun level =>
      decide (level * 4 % 4 = 0 ∧ level * 4 ≤ 60 ∧ level * 4 % 256 = level * 4)) = true ∧
    (List.range 16).all (fun level => (List.range 4).all (fun offset =>
      decide ((0x80 + 4 * level + offset) % 256 = 0x80 + 4 * level + offset))) = true := by
  refine ⟨?_, grey_entries_facts⟩
  rw [lcd_init_eq, grey_entries_by_level]

set_option maxRecDepth 100000 in
theorem init_trace_sixth_from_end :
    ((lcd_init ⟨0, 0, []⟩).trace.reverse)[5]? = some (BusEvent.write 0xBF) := by
  rw [lcd_init_eq]
  decide

set_option maxRecDepth 100000 in
theorem grey_ramp_reverse_head :
    ∃ tl, ((List.range 64).flatMap (fun n =>
        [BusEvent.write (0x80 + n), BusEvent.write (n / 4 * 4)])).reverse =
      BusEvent.write 60 :: tl :=
  ⟨((List.range 64).flatMap (fun n =>
      [BusEvent.write (0x80 + n), BusEvent.write (n / 4 * 4)])).reverse.tail, by decide⟩

/-- C14 as stated fails: in the trace of `lcd_init` the greyscale ramp (the 64
entries for 0x80 .. 0xBF) is not followed by three bytes and then 0xAF; only the
two bytes 0x38 and 0x74 stand between the ramp and 0xAF. -/
theorem C14_not_three_trailing_bytes :
    (∃ pre, (lcd_init ⟨0, 0, []⟩).trace =
      pre ++ (List.range 64).flatMap (fun n =>
          [BusEvent.write (0x80 + n), BusEvent.write (n / 4 * 4)]) ++
        [BusEvent.write 0x38, BusEvent.write 0x74, BusEvent.write 0xAF, BusEvent.stop]) ∧
    ¬ ∃ pre b1 b2 b3, (lcd_init ⟨0, 0, []⟩).trace =
      pre ++ (List.range 64).flatMap (fun n =>
          [BusEvent.write (0x80 + n), BusEvent.write (n / 4 * 4)]) ++
        [BusEvent.write b1, BusEvent.write b2, BusEvent.write b3, BusEvent.write 0xAF,
          BusEvent.stop] := by
  constructor
  · exact ⟨_, by rw [lcd_init_eq]⟩
  · rintro ⟨pre, b1, b2, b3, h⟩
    have h5 := init_trace_sixth_from_end
    obtain ⟨tl, htl⟩ := grey_ramp_reverse_head
    rw [h] at h5
    simp only [List.reverse_append, htl] at h5
    simp at h5

/-- C14, amended: in the bytes written by `lcd_init` the greyscale ramp is
followed by the two trailing bytes 0x38 and 0x74 and then the display-on command
0xAF; 0xAF is the last byte written, and the stop that follows it ends the single
transaction (one start, then only byte writes, then one stop). -/
theorem C14_init_tail (s : State) :
    ∃ bytes : List Nat,
      (lcd_init s).trace = s.trace ++ BusEvent.start 0x7E :: bytes.map BusEvent.write ++
        [BusEvent.stop] ∧
      bytes =
        [0x00, 0x48, 0x64, 0xA0, 0xC8, 0x44, 0x00, 0xAB, 0x26, 0x81, 0x15, 0x56, 0x64, 0x2C,
          0x66, 0x2E, 0x2F, 0xF3, 0x00, 0x96, 0x38, 0x75, 0x97] ++
        (List.range 64).flatMap (fun n => [0x80 + n, n / 4 * 4]) ++
        [0x38, 0x74] ++ [0xAF] ∧
      bytes.getLast? = some 0xAF := by
  refine ⟨_, ?_, rfl, ?_⟩
  · rw [lcd_init_eq]
    simp [List.flatMap, List.map_flatten, Function.comp_def]
  · rw [List.getLast?_append]
    rfl

/-! ## The column range -/

/-- C15 as stated fails: from column 0 of a 160 column display
`lcd_clear_restofrow` leaves the column at 160, and from column 159
`lcd_draw_unit` leaves it at 160; neither is in 0 .. 159. -/
theorem C15_column_leaves_range :
    (0 < 160 ∧ (lcd_clear_restofrow ⟨160, 13, 4⟩ ⟨0, 0, []⟩).lcd_cur_column = 160 ∧
      ¬ (lcd_clear_restofrow ⟨160, 13, 4⟩ ⟨0, 0, []⟩).lcd_cur_column < 160) ∧
    (159 < 160 ∧ (lcd_draw_unit 0 0 0 0 ⟨159, 0, []⟩).lcd_cur_column = 160 ∧
      ¬ (lcd_draw_unit 0 0 0 0 ⟨159, 0, []⟩).lcd_cur_column < 160) := by
  rw [lcd_clear_restofrow_eq]
  decide

/-- C15, amended: the code never checks the column against `LCD_WIDTH`.  From a
state whose column is in `0 .. LCD_WIDTH - 1` (with `LCD_WIDTH ≤ 255`):
`lcd_set_column` and `lcd_set_row_column` with an in-range column leave the
column at that argument; `lcd_draw_unit` leaves it at column + 1, at most
`LCD_WIDTH`; `lcd_clear_restofrow`, `lcd_clear_row` (in-range start column) and
`lcd_clear_screen` (at least one row) leave it at exactly `LCD_WIDTH`;
`lcd_draw_char` leaves it at `LCD_WIDTH` for a newline, unchanged for carriage
return and null, at `(column + 6) mod 256` for a printable character and at
`(column + n) mod 256` with `6 ≤ n ≤ 261` for a tab. -/
theorem C15_column_after (cfg : Config) (s : State) (r c b0 b1 b2 b3 : Nat) (ch : Int)
    (hW : cfg.LCD_WIDTH ≤ 255) (hs : s.lcd_cur_column < cfg.LCD_WIDTH)
    (hc : c < cfg.LCD_WIDTH) (hrows : 0 < cfg.LCD_ROWS)
    (hch : 0x20 ≤ ch ∧ ch ≤ 0x7E) (ht : 1 ≤ cfg.FONT_TAB_SIZE) :
    (lcd_set_column c s).lcd_cur_column = c ∧
    (lcd_set_row_column r c s).lcd_cur_column = c ∧
    ((lcd_draw_unit b0 b1 b2 b3 s).lcd_cur_column = s.lcd_cur_column + 1 ∧
      s.lcd_cur_column + 1 ≤ cfg.LCD_WIDTH) ∧
    (lcd_clear_restofrow cfg s).lcd_cur_column = cfg.LCD_WIDTH ∧
    (lcd_clear_row cfg r c s).lcd_cur_column = cfg.LCD_WIDTH ∧
    (lcd_clear_screen cfg s).lcd_cur_column = cfg.LCD_WIDTH ∧
    (lcd_draw_char cfg 10 s).map (fun x => x.lcd_cur_column) = some cfg.LCD_WIDTH ∧
    (lcd_draw_char cfg 13 s).map (fun x => x.lcd_cur_column) = some s.lcd_cur_column ∧
    (lcd_draw_char cfg 0 s).map (fun x => x.lcd_cur_column) = some s.lcd_cur_column ∧
    (lcd_draw_char cfg ch s).map (fun x => x.lcd_cur_column) =
      some ((s.lcd_cur_column + 6) % 256) ∧
    (∃ n, 6 ≤ n ∧ n ≤ 261 ∧
      (lcd_draw_char cfg 9 s).map (fun x => x.lcd_cur_column) =
        some ((s.lcd_cur_column + n) % 256)) := by
  have hrest : ∀ x : State, x.lcd_cur_column < cfg.LCD_WIDTH →
      (lcd_clear_restofrow cfg x).lcd_cur_column = cfg.LCD_WIDTH := by
    intro x hx
    rw [lcd_clear_restofrow_eq]
    simp only [if_pos hx]
    rw [Nat.add_sub_cancel' (Nat.le_of_lt hx)]
    exact Nat.mod_eq_of_lt (by omega)
  refine ⟨by rw [lcd_set_column_eq], by rw [lcd_set_row_column_eq], ?_, hrest s hs, ?_, ?_,
    ?_, ?_, ?_, ?_, ?_⟩
  · constructor
    · by_cases h : s.lcd_draw_started = 0
      · rw [lcd_draw_unit_closed _ _ _ _ s h]
        exact Nat.mod_eq_of_lt (by omega)
      · rw [lcd_draw_unit_open _ _ _ _ s h]
        exact Nat.mod_eq_of_lt (by omega)
    · omega
  · unfold lcd_clear_row
    apply hrest
    rw [lcd_set_row_column_eq, Nat.mod_eq_of_lt (show c < 256 by omega)]
    exact hc
  · obtain ⟨n, hn⟩ : ∃ n, cfg.LCD_ROWS = n + 1 := ⟨_, (Nat.succ_pred_eq_of_pos hrows).symm⟩
    rw [lcd_clear_screen, Nat.sub_zero, hn, lcd_clear_screen_loop_eq cfg (by omega) n 0 s]
    exact Nat.mod_eq_of_lt (by omega)
  · rw [lcd_draw_char, if_pos rfl, Option.map_some', hrest s hs]
  · rw [lcd_draw_char, if_neg (by decide), if_pos rfl, Option.map_some']
  · rw [lcd_draw_char, if_neg (by decide), if_neg (by decide), if_neg (by decide),
      if_neg (by decide), Option.map_some']
  · obtain ⟨f0, f1, f2, f3, f4, _, hd⟩ := lcd_draw_char_printable cfg ch s hch.1 hch.2
    rw [hd, Option.map_some']
  · obtain ⟨n, hn1, hn2, heq, _, _⟩ := lcd_draw_char_tab_eq cfg s ht
    exact ⟨5 + n, by omega, by omega, by rw [heq, Option.map_some']⟩

theorem C15_column_after_witness :
    (lcd_clear_row ⟨160, 13, 4⟩ 2 30 ⟨100, 1, []⟩).lcd_cur_column = 160 ∧
    (lcd_draw_char ⟨160, 13, 4⟩ 0x41 ⟨100, 1, []⟩).map (fun x => x.lcd_cur_column) =
      some ((100 + 6) % 256) := by
  have h := C15_column_after ⟨160, 13, 4⟩ ⟨100, 1, []⟩ 2 30 1 2 3 4 0x41
    (by decide) (by decide) (by decide) (by decide) (by decide) (by decide)
  exact ⟨h.2.2.2.2.1, h.2.2.2.2.2.2.2.2.2.1⟩

/-! ## Font table bounds -/

theorem pgm_read_byte_lcd_font_isSome (idx : Int) :
    (pgm_read_byte_lcd_font idx).isSome = true ↔ 0 ≤ idx ∧ idx < 475 := by
  unfold pgm_read_byte_lcd_font
  by_cases h0 : 0 ≤ idx
  · rw [if_pos h0]
    by_cases h1 : idx < 475
    · have hlt : idx.toNat < lcd_font.length := by rw [lcd_font_length]; omega
      rw [List.getElem?_eq_getElem hlt]
      simp [h0, h1]
    · have hge : lcd_font.length ≤ idx.toNat := by rw [lcd_font_length]; omega
      rw [List.getElem?_eq_none hge]
      simp [h1]
  · rw [if_neg h0]
    simp [h0]

theorem lcd_draw_char_glyph_none (c : Int) (n i : Nat) (s : State) (hi : i < 5)
    (hc : ¬ (0x20 ≤ c ∧ c ≤ 0x7E)) :
    lcd_draw_char_glyph c (n + 1) i s = none := by
  have hread : pgm_read_byte_lcd_font ((c - 0x20) * 5 + (i : Int)) = none := by
    have h := pgm_read_byte_lcd_font_isSome ((c - 0x20) * 5 + (i : Int))
    cases hr : pgm_read_byte_lcd_font ((c - 0x20) * 5 + (i : Int)) with
    | none => rfl
    | some f =>
      rw [hr] at h
      have := h.mp rfl
      omega
  rw [lcd_draw_char_glyph, hread]

theorem lcd_draw_char_eq_none_iff (cfg : Config) (c : Int) (s : State) :
    lcd_draw_char cfg c s = none ↔
      (c ≠ 10 ∧ c ≠ 13 ∧ c ≠ 9 ∧ c ≠ 0 ∧ ¬ (0x20 ≤ c ∧ c ≤ 0x7E)) ∨
      (c = 9 ∧ cfg.FONT_TAB_SIZE = 0) := by
  by_cases h10 : c = 10
  · subst h10
    rw [lcd_draw_char, if_pos rfl]
    simp
  by_cases h13 : c = 13
  · subst h13
    rw [lcd_draw_char, if_neg (by decide), if_pos rfl]
    simp
  by_cases h9 : c = 9
  · subst h9
    by_cases ht : cfg.FONT_TAB_SIZE = 0
    · rw [lcd_draw_char, if_neg (by decide), if_neg (by decide), if_pos rfl]
      simp [ht]
    · rw [lcd_draw_char_tab_unfold cfg s (Nat.pos_of_ne_zero ht)]
      simp [ht]
  by_cases h0 : c = 0
  · subst h0
    rw [lcd_draw_char, if_neg (by decide), if_neg (by decide), if_neg (by decide),
      if_neg (by decide)]
    simp
  by_cases hp : 0x20 ≤ c ∧ c ≤ 0x7E
  · obtain ⟨f0, f1, f2, f3, f4, _, hd⟩ := lcd_draw_char_printable cfg c s hp.1 hp.2
    rw [hd]
    simp [h9, hp]
  · have e5 : FONT_WIDTH - 1 - 0 = 4 + 1 := rfl
    rw [lcd_draw_char, if_neg h10, if_neg h13, if_neg h9, if_pos h0, e5,
      lcd_draw_char_glyph_none c 4 0 s (by decide) hp]
    simp [h10, h13, h9, h0, hp]

/-- C16: `lcd_font` has exactly 475 = 95 * 5 bytes.  For every character code `c`
and every `i` in 0 .. 4 the index `(c - 0x20) * 5 + i`, in integer arithmetic,
is inside the table exactly when `0x20 ≤ c ≤ 0x7E`, and exactly then the read of
`lcd_draw_char` is defined.  So no lookup is out of bounds for a printable
code, and every other code that reaches the glyph branch (not newline,
carriage return, tab or null; for example 0x7F and 0x01) reads out of bounds:
`lcd_draw_char` is undefined there. -/
theorem C16_font_lookup_bounds (cfg : Config) (c : Int) (i : Fin 5) (s : State) :
    lcd_font.length = 475 ∧ (475 : Nat) = 95 * 5 ∧
    ((0 ≤ (c - 0x20) * 5 + ((i : Nat) : Int) ∧ (c - 0x20) * 5 + ((i : Nat) : Int) < 475) ↔
      (0x20 ≤ c ∧ c ≤ 0x7E)) ∧
    ((pgm_read_byte_lcd_font ((c - 0x20) * 5 + ((i : Nat) : Int))).isSome = true ↔
      (0x20 ≤ c ∧ c ≤ 0x7E)) ∧
    (lcd_draw_char cfg c s = none ↔
      (c ≠ 10 ∧ c ≠ 13 ∧ c ≠ 9 ∧ c ≠ 0 ∧ ¬ (0x20 ≤ c ∧ c ≤ 0x7E)) ∨
      (c = 9 ∧ cfg.FONT_TAB_SIZE = 0)) ∧
    lcd_draw_char cfg 0x7F s = none ∧ lcd_draw_char cfg 0x01 s = none := by
  have hi := i.isLt
  have hidx : (0 ≤ (c - 0x20) * 5 + ((i : Nat) : Int) ∧
      (c - 0x20) * 5 + ((i : Nat) : Int) < 475) ↔ (0x20 ≤ c ∧ c ≤ 0x7E) := by
    constructor <;> intro h <;> constructor <;> omega
  refine ⟨lcd_font_length, rfl, hidx, ?_, lcd_draw_char_eq_none_iff cfg c s, ?_, ?_⟩
  · rw [pgm_read_byte_lcd_font_isSome, hidx]
  · rw [lcd_draw_char_eq_none_iff]
    left
    decide
  · rw [lcd_draw_char_eq_none_iff]
    left
    decide

/-! ## Rendering a string -/

theorem glyphEvents_eq (c : Int) (f0 f1 f2 f3 f4 : Nat)
    (e0 : lcd_font[((c - 0x20) * 5 + 0).toNat]? = some f0)
    (e1 : lcd_font[((c - 0x20) * 5 + 1).toNat]? = some f1)
    (e2 : lcd_font[((c - 0x20) * 5 + 2).toNat]? = some f2)
    (e3 : lcd_font[((c - 0x20) * 5 + 3).toNat]? = some f3)
    (e4 : lcd_font[((c - 0x20) * 5 + 4).toNat]? = some f4) :
    glyphEvents c =
      [BusEvent.write f0, BusEvent.write f0, BusEvent.write f0, BusEvent.write f0,
        BusEvent.write f1, BusEvent.write f1, BusEvent.write f1, BusEvent.write f1,
        BusEvent.write f2, BusEvent.write f2, BusEvent.write f2, BusEvent.write f2,
        BusEvent.write f3, BusEvent.write f3, BusEvent.write f3, BusEvent.write f3,
        BusEvent.write f4, BusEvent.write f4, BusEvent.write f4, BusEvent.write f4,
        BusEvent.write 0, BusEvent.write 0, BusEvent.write 0, BusEvent.write 0] := by
  have r5 : List.range 5 = [0, 1, 2, 3, 4] := by decide
  have g : ∀ (k : Int) (f : Nat), lcd_font[k.toNat]? = some f → lcd_font.getD k.toNat 0 = f := by
    intro k f h
    rw [List.getD_eq_getElem?_getD, h]
    rfl
  have g0 := g _ _ e0
  have g1 := g _ _ e1
  have g2 := g _ _ e2
  have g3 := g _ _ e3
  have g4 := g _ _ e4
  unfold glyphEvents
  rw [r5]
  simp only [List.flatMap_cons, List.flatMap_nil, Nat.cast_zero, Nat.cast_one, Nat.cast_ofNat,
    g0, g1, g2, g3, g4]
  rfl

theorem glyphEvents_length (c : Int) : (glyphEvents c).length = 24 := by
  have r5 : List.range 5 = [0, 1, 2, 3, 4] := by decide
  unfold glyphEvents
  rw [r5]
  simp

theorem glyphEvents_writes (c : Int) : ∀ e ∈ glyphEvents c, ∃ b, e = BusEvent.write b := by
  intro e he
  unfold glyphEvents at he
  simp only [List.mem_append, List.mem_flatMap, List.mem_replicate] at he
  rcases he with ⟨i, _, _, h⟩ | ⟨_, h⟩
  · exact ⟨_, h⟩
  · exact ⟨_, h⟩

theorem lcd_draw_char_glyphEvents (cfg : Config) (c : Int) (s : State)
    (h1 : 0x20 ≤ c) (h2 : c ≤ 0x7E) :
    lcd_draw_char cfg c s = some
      { lcd_cur_column := (s.lcd_cur_column + 6) % 256
        lcd_draw_started := if s.lcd_draw_started = 0 then 1 else s.lcd_draw_started
        trace := s.trace ++
          (if s.lcd_draw_started = 0 then [BusEvent.start 0x7E, BusEvent.write 0x40]
            else []) ++ glyphEvents c } := by
  obtain ⟨f0, f1, f2, f3, f4, ⟨e0, e1, e2, e3, e4⟩, hd⟩ := lcd_draw_char_printable cfg c s h1 h2
  rw [hd, glyphEvents_eq c f0 f1 f2 f3 f4 e0 e1 e2 e3 e4]

theorem lcd_draw_chars_open (cfg : Config) (cs : List Int) (c : Int) (s : State)
    (hs : s.lcd_draw_started ≠ 0) (hp : ∀ x ∈ c :: cs, 0x20 ≤ x ∧ x ≤ 0x7E) :
    lcd_draw_chars cfg (c :: cs) s = some
      { lcd_cur_column := (s.lcd_cur_column + 6 * (c :: cs).length) % 256
        lcd_draw_started := s.lcd_draw_started
        trace := s.trace ++ (c :: cs).flatMap glyphEvents } := by
  induction cs generalizing c s with
  | nil =>
    have hc := hp c (List.mem_cons_self _ _)
    rw [lcd_draw_chars, lcd_draw_char_glyphEvents cfg c s hc.1 hc.2]
    simp [lcd_draw_chars, hs]
  | cons c' cs ih =>
    have hc := hp c (List.mem_cons_self _ _)
    rw [lcd_draw_chars, lcd_draw_char_glyphEvents cfg c s hc.1 hc.2]
    simp only [if_neg hs]
    rw [ih c' ⟨(s.lcd_cur_column + 6) % 256, s.lcd_draw_started,
      s.trace ++ [] ++ glyphEvents c⟩ hs (fun x hx => hp x (List.mem_cons_of_mem _ hx))]
    simp only [List.length_cons, List.flatMap_cons, List.append_nil, List.append_assoc,
      Option.some.injEq, State.mk.injEq, and_true, true_and]
    omega

theorem lcd_draw_chars_closed (cfg : Config) (cs : List Int) (c : Int) (s : State)
    (hs : s.lcd_draw_started = 0) (hp : ∀ x ∈ c :: cs, 0x20 ≤ x ∧ x ≤ 0x7E) :
    lcd_draw_chars cfg (c :: cs) s = some
      { lcd_cur_column := (s.lcd_cur_column + 6 * (c :: cs).length) % 256
        lcd_draw_started := 1
        trace := s.trace ++ [BusEvent.start 0x7E, BusEvent.write 0x40] ++
          (c :: cs).flatMap glyphEvents } := by
  have hc := hp c (List.mem_cons_self _ _)
  rw [lcd_draw_chars, lcd_draw_char_glyphEvents cfg c s hc.1 hc.2]
  simp only [if_pos hs]
  cases cs with
  | nil => simp [lcd_draw_chars]
  | cons c' cs =>
    rw [lcd_draw_chars_open cfg cs c' ⟨(s.lcd_cur_column + 6) % 256, 1,
      s.trace ++ [BusEvent.start 0x7E, BusEvent.write 0x40] ++ glyphEvents c⟩ Nat.one_ne_zero
      (fun x hx => hp x (List.mem_cons_of_mem _ hx))]
    simp only [List.length_cons, List.flatMap_cons, List.append_assoc,
      Option.some.injEq, State.mk.injEq, and_true, true_and]
    omega

theorem lcd_draw_putchars_eq (cfg : Config) (cs : List Int) (s : State) :
    lcd_draw_putchars cfg cs s =
      (lcd_draw_chars cfg cs s).map (fun x => (List.replicate cs.length 0, x)) := by
  induction cs generalizing s with
  | nil => rfl
  | cons c cs ih =>
    rw [lcd_draw_putchars, lcd_draw_chars, lcd_draw_putchar]
    cases hc : lcd_draw_char cfg c s with
    | none => rfl
    | some s1 =>
      simp only
      rw [ih s1]
      cases lcd_draw_chars cfg cs s1 with
      | none => rfl
      | some s2 => rfl

theorem flatMap_glyphEvents_length (str : List Int) :
    (str.flatMap glyphEvents).length = 24 * str.length := by
  induction str with
  | nil => rfl
  | cons c cs ih =>
    rw [List.flatMap_cons, List.length_append, glyphEvents_length, ih, List.length_cons]
    omega

/-! ## Session flag and bus framing -/

theorem frameScan_append (b : Bool) (t es : List BusEvent) :
    frameScan b (t ++ es) = (frameScan b t).bind (fun b' => frameScan b' es) := by
  induction t generalizing b with
  | nil => rfl
  | cons e t ih =>
    cases e with
    | start a =>
      rw [List.cons_append, frameScan, frameScan]
      exact ih true
    | write d =>
      cases b
      · simp [frameScan]
      · rw [List.cons_append, frameScan, frameScan, if_pos rfl, if_pos rfl]
        exact ih true
    | stop =>
      cases b
      · simp [frameScan]
      · rw [List.cons_append, frameScan, frameScan, if_pos rfl, if_pos rfl]
        exact ih false

theorem frameScan_writes (es : List BusEvent) (h : ∀ e ∈ es, ∃ d, e = BusEvent.write d) :
    frameScan true es = some true := by
  induction es with
  | nil => rfl
  | cons e es ih =>
    obtain ⟨d, rfl⟩ := h e (List.mem_cons_self _ _)
    simp only [frameScan, if_true]
    exact ih (fun x hx => h x (List.mem_cons_of_mem _ hx))

theorem frameScan_replicate_write (n d : Nat) :
    frameScan true (List.replicate n (BusEvent.write d)) = some true :=
  frameScan_writes _ (fun _ he => ⟨d, (List.mem_replicate.mp he).2⟩)

/-- One step of the framing invariant: events appended to a well framed trace
are scanned from the flag the trace ends with. -/
theorem framed_step (s : State) (es : List BusEvent) (started' : Nat)
    (hinv : frameScan false s.trace = some (decide (s.lcd_draw_started ≠ 0)))
    (hes : frameScan (decide (s.lcd_draw_started ≠ 0)) es = some (decide (started' ≠ 0))) :
    frameScan false (s.trace ++ es) = some (decide (started' ≠ 0)) := by
  rw [frameScan_append, hinv]
  exact hes

theorem framed_lcd_draw_start (s : State)
    (hinv : frameScan false s.trace = some (decide (s.lcd_draw_started ≠ 0))) :
    frameScan false (lcd_draw_start s).trace =
      some (decide ((lcd_draw_start s).lcd_draw_started ≠ 0)) := by
  have e : lcd_draw_start s =
      ⟨s.lcd_cur_column, 1, s.trace ++ [BusEvent.start 0x7E, BusEvent.write 0x40]⟩ := by
    simp [lcd_draw_start, i2c_start, i2c_write, LCD_SLAVE_ADDR, LCD_DATASEND]
  rw [e]
  exact framed_step s _ 1 hinv rfl

theorem framed_lcd_draw_end (s : State)
    (hinv : frameScan false s.trace = some (decide (s.lcd_draw_started ≠ 0))) :
    frameScan false (lcd_draw_end s).trace =
      some (decide ((lcd_draw_end s).lcd_draw_started ≠ 0)) := by
  rw [lcd_draw_end_eq]
  apply framed_step s _ 0 hinv
  by_cases h : s.lcd_draw_started = 0 <;> simp [h, frameScan]

theorem framed_lcd_draw_unit (b0 b1 b2 b3 : Nat) (s : State)
    (hinv : frameScan false s.trace = some (decide (s.lcd_draw_started ≠ 0))) :
    frameScan false (lcd_draw_unit b0 b1 b2 b3 s).trace =
      some (decide ((lcd_draw_unit b0 b1 b2 b3 s).lcd_draw_started ≠ 0)) := by
  by_cases h : s.lcd_draw_started = 0
  · rw [lcd_draw_unit_closed _ _ _ _ s h]
    apply framed_step s _ 1 hinv
    simp [h, frameScan]
  · rw [lcd_draw_unit_open _ _ _ _ s h]
    apply framed_step s _ s.lcd_draw_started hinv
    simp [h, frameScan]

theorem framed_lcd_set_row (r : Nat) (s : State)
    (hinv : frameScan false s.trace = some (decide (s.lcd_draw_started ≠ 0))) :
    frameScan false (lcd_set_row r s).trace =
      some (decide ((lcd_set_row r s).lcd_draw_started ≠ 0)) := by
  rw [lcd_set_row_eq]
  simp only [List.append_assoc]
  apply framed_step s _ _ hinv
  by_cases h : s.lcd_draw_started = 0 <;> simp [h, frameScan]

theorem framed_lcd_set_column (c : Nat) (s : State)
    (hinv : frameScan false s.trace = some (decide (s.lcd_draw_started ≠ 0))) :
    frameScan false (lcd_set_column c s).trace =
      some (decide ((lcd_set_column c s).lcd_draw_started ≠ 0)) := by
  rw [lcd_set_column_eq]
  simp only [List.append_assoc]
  apply framed_step s _ _ hinv
  by_cases h : s.lcd_draw_started = 0 <;> simp [h, frameScan]

theorem framed_lcd_set_row_column (r c : Nat) (s : State)
    (hinv : frameScan false s.trace = some (decide (s.lcd_draw_started ≠ 0))) :
    frameScan false (lcd_set_row_column r c s).trace =
      some (decide ((lcd_set_row_column r c s).lcd_draw_started ≠ 0)) := by
  rw [lcd_set_row_column_eq]
  simp only [List.append_assoc]
  apply framed_step s _ _ hinv
  by_cases h : s.lcd_draw_started = 0 <;> simp [h, frameScan]

theorem framed_lcd_clear_restofrow (cfg : Config) (s : State)
    (hinv : frameScan false s.trace = some (decide (s.lcd_draw_started ≠ 0))) :
    frameScan false (lcd_clear_restofrow cfg s).trace =
      some (decide ((lcd_clear_restofrow cfg s).lcd_draw_started ≠ 0)) := by
  rw [lcd_clear_restofrow_eq]
  simp only [List.append_assoc]
  apply framed_step s _ 0 hinv
  by_cases h : s.lcd_draw_started = 0
  · by_cases hc : s.lcd_cur_column < cfg.LCD_WIDTH
    · simp [h, hc, frameScan, frameScan_append, frameScan_replicate_write]
    · have h0 : cfg.LCD_WIDTH - s.lcd_cur_column = 0 := by omega
      simp [h, hc, h0, frameScan]
  · simp [h, frameScan, frameScan_append, frameScan_replicate_write]

theorem framed_lcd_clear_row (cfg : Config) (r c_start : Nat) (s : State)
    (hinv : frameScan false s.trace = some (decide (s.lcd_draw_started ≠ 0))) :
    frameScan false (lcd_clear_row cfg r c_start s).trace =
      some (decide ((lcd_clear_row cfg r c_start s).lcd_draw_started ≠ 0)) := by
  unfold lcd_clear_row
  exact framed_lcd_clear_restofrow cfg _ (framed_lcd_set_row_column _ _ s hinv)

theorem framed_lcd_clear_screen_loop (cfg : Config) (n r : Nat) (s : State)
    (hinv : frameScan false s.trace = some (decide (s.lcd_draw_started ≠ 0))) :
    frameScan false (lcd_clear_screen_loop cfg n r s).trace =
      some (decide ((lcd_clear_screen_loop cfg n r s).lcd_draw_started ≠ 0)) := by
  induction n generalizing r s with
  | zero => exact hinv
  | succ n ih =>
    rw [lcd_clear_screen_loop]
    exact ih (r + 1) _ (framed_lcd_clear_row cfg r 0 s hinv)

set_option maxRecDepth 100000 in
theorem framed_init_body :
    frameScan true
      ([BusEvent.write 0x00,
          BusEvent.write 0x48, BusEvent.write 0x64, BusEvent.write 0xA0, BusEvent.write 0xC8,
          BusEvent.write 0x44, BusEvent.write 0x00, BusEvent.write 0xAB, BusEvent.write 0x26,
          BusEvent.write 0x81, BusEvent.write 0x15, BusEvent.write 0x56, BusEvent.write 0x64,
          BusEvent.write 0x2C, BusEvent.write 0x66, BusEvent.write 0x2E, BusEvent.write 0x2F,
          BusEvent.write 0xF3, BusEvent.write 0x00, BusEvent.write 0x96, BusEvent.write 0x38,
          BusEvent.write 0x75, BusEvent.write 0x97] ++
        (List.range 64).flatMap (fun n =>
          [BusEvent.write (0x80 + n), BusEvent.write (n / 4 * 4)]) ++
        [BusEvent.write 0x38, BusEvent.write 0x74, BusEvent.write 0xAF, BusEvent.stop]) =
      some false := by
  decide

theorem framed_lcd_init (s : State) (b : Bool) (hinv : frameScan false s.trace = some b) :
    (lcd_init s).lcd_cur_column = 0 ∧ (lcd_init s).lcd_draw_started = 0 ∧
    frameScan false (lcd_init s).trace = some false := by
  rw [lcd_init_eq]
  refine ⟨rfl, rfl, ?_⟩
  simp only [List.append_assoc, List.cons_append]
  rw [frameScan_append, hinv]
  simp only [Option.bind, frameScan]
  have h := framed_init_body
  simp only [List.append_assoc, List.cons_append] at h
  exact h

theorem framed_lcd_draw_char (cfg : Config) (c : Int) (s s' : State)
    (hinv : frameScan false s.trace = some (decide (s.lcd_draw_started ≠ 0)))
    (hrun : lcd_draw_char cfg c s = some s') :
    frameScan false s'.trace = some (decide (s'.lcd_draw_started ≠ 0)) := by
  by_cases h10 : c = 10
  · subst h10
    rw [lcd_draw_char, if_pos rfl] at hrun
    cases hrun
    exact framed_lcd_clear_restofrow cfg s hinv
  by_cases h13 : c = 13
  · subst h13
    rw [lcd_draw_char, if_neg (by decide), if_pos rfl] at hrun
    cases hrun
    exact hinv
  by_cases h0 : c = 0
  · subst h0
    rw [lcd_draw_char, if_neg (by decide), if_neg (by decide), if_neg (by decide),
      if_neg (by decide)] at hrun
    cases hrun
    exact hinv
  have hopen : ∀ es : List BusEvent, (∀ e ∈ es, ∃ d, e = BusEvent.write d) →
      frameScan false
        (s.trace ++ (if s.lcd_draw_started = 0 then
          [BusEvent.start 0x7E, BusEvent.write 0x40] else []) ++ es) =
      some (decide ((if s.lcd_draw_started = 0 then 1 else s.lcd_draw_started) ≠ 0)) := by
    intro es hes
    rw [List.append_assoc]
    apply framed_step s _ _ hinv
    by_cases h : s.lcd_draw_started = 0
    · simp [h, frameScan, frameScan_writes es hes]
    · simp [h, frameScan_writes es hes]
  by_cases h9 : c = 9
  · subst h9
    have hnone := lcd_draw_char_eq_none_iff cfg 9 s
    have ht : 0 < cfg.FONT_TAB_SIZE := by
      rcases Nat.eq_zero_or_pos cfg.FONT_TAB_SIZE with h | h
      · rw [hnone.mpr (Or.inr ⟨rfl, h⟩)] at hrun
        cases hrun
      · exact h
    obtain ⟨n, _, _, heq, _, _⟩ := lcd_draw_char_tab_eq cfg s ht
    rw [heq] at hrun
    cases hrun
    exact hopen _ (fun _ he => ⟨0, (List.mem_replicate.mp he).2⟩)
  by_cases hp : 0x20 ≤ c ∧ c ≤ 0x7E
  · rw [lcd_draw_char_glyphEvents cfg c s hp.1 hp.2] at hrun
    cases hrun
    exact hopen _ (glyphEvents_writes c)
  · rw [(lcd_draw_char_eq_none_iff cfg c s).mpr (Or.inl ⟨h10, h13, h9, h0, hp⟩)] at hrun
    cases hrun

theorem framed_Op_run (cfg : Config) (op : Op) (s s' : State)
    (hinv : frameScan false s.trace = some (decide (s.lcd_draw_started ≠ 0)))
    (hrun : op.run cfg s = some s') :
    frameScan false s'.trace = some (decide (s'.lcd_draw_started ≠ 0)) := by
  cases op with
  | init =>
    cases hrun
    obtain ⟨_, h2, h3⟩ := framed_lcd_init s _ hinv
    rw [h3, h2]
    rfl
  | set_row r => cases hrun; exact framed_lcd_set_row r s hinv
  | set_column c => cases hrun; exact framed_lcd_set_column c s hinv
  | set_row_column r c => cases hrun; exact framed_lcd_set_row_column r c s hinv
  | draw_start => cases hrun; exact framed_lcd_draw_start s hinv
  | draw_end => cases hrun; exact framed_lcd_draw_end s hinv
  | draw_unit b0 b1 b2 b3 => cases hrun; exact framed_lcd_draw_unit b0 b1 b2 b3 s hinv
  | clear_row r c => cases hrun; exact framed_lcd_clear_row cfg r c s hinv
  | clear_restofrow => cases hrun; exact framed_lcd_clear_restofrow cfg s hinv
  | clear_screen => cases hrun; exact framed_lcd_clear_screen_loop cfg _ 0 s hinv
  | draw_char c => exact framed_lcd_draw_char cfg c s s' hinv hrun

theorem Op_run_defined (cfg : Config) (op : Op) (s : State) (h : op.defined cfg = true) :
    ∃ s', op.run cfg s = some s' := by
  cases op with
  | draw_char c =>
    cases hr : lcd_draw_char cfg c s with
    | some s' => exact ⟨s', hr⟩
    | none =>
      exfalso
      have hn := (lcd_draw_char_eq_none_iff cfg c s).mp hr
      simp only [Op.defined, charDefined, Bool.or_eq_true, Bool.and_eq_true,
        decide_eq_true_eq] at h
      rcases hn with ⟨a1, a2, a3, a4, a5⟩ | ⟨a1, a2⟩
      · rcases h with (((h | h) | h) | h) | h
        · exact a1 h
        · exact a2 h
        · exact a4 h
        · exact a5 h
        · exact a3 h.1
      · subst a1
        rcases h with (((h | h) | h) | h) | h
        · revert h; decide
        · revert h; decide
        · revert h; decide
        · revert h; decide
        · exact h.2 a2
  | _ => exact ⟨_, rfl⟩

theorem framed_runOps (cfg : Config) (ops : List Op) (s : State)
    (hinv : frameScan false s.trace = some (decide (s.lcd_draw_started ≠ 0)))
    (hdef : ∀ op ∈ ops, op.defined cfg = true) :
    ∃ s', runOps cfg ops s = some s' ∧
      frameScan false s'.trace = some (decide (s'.lcd_draw_started ≠ 0)) := by
  induction ops generalizing s with
  | nil => exact ⟨s, rfl, hinv⟩
  | cons op ops ih =>
    obtain ⟨s1, h1⟩ := Op_run_defined cfg op s (hdef op (List.mem_cons_self _ _))
    obtain ⟨s', h2, h3⟩ := ih s1 (framed_Op_run cfg op s s1 hinv h1)
      (fun o ho => hdef o (List.mem_cons_of_mem _ ho))
    refine ⟨s', ?_, h3⟩
    rw [runOps, h1]
    exact h2

theorem pgm_read_byte_flash_lt (flash : Int → Nat) (idx : Int) :
    pgm_read_byte_flash flash idx < 256 := by
  unfold pgm_read_byte_flash
  cases h : pgm_read_byte_lcd_font idx with
  | none => exact Nat.mod_lt _ (by decide)
  | some f =>
    unfold pgm_read_byte_lcd_font at h
    split at h
    · exact lcd_font_bytes f (List.getElem?_mem h)
    · cases h

theorem lcd_draw_char_glyph_flash_agree (flash : Int → Nat) (c : Int) (n i : Nat)
    (s s' : State) (h : lcd_draw_char_glyph c n i s = some s') :
    lcd_draw_char_glyph_flash flash c n i s = s' := by
  induction n generalizing i s with
  | zero =>
    rw [lcd_draw_char_glyph] at h
    cases h
    rfl
  | succ n ih =>
    rw [lcd_draw_char_glyph] at h
    rw [lcd_draw_char_glyph_flash]
    cases hr : pgm_read_byte_lcd_font ((c - 0x20) * 5 + (i : Int)) with
    | none =>
      rw [hr] at h
      cases h
    | some f =>
      rw [hr] at h
      have e : pgm_read_byte_flash flash ((c - 0x20) * 5 + (i : Int)) = f := by
        rw [pgm_read_byte_flash, hr]
      rw [e]
      exact ih (i + 1) _ h

/-- Where `lcd_draw_char` has defined behaviour, `lcd_draw_char_flash` gives the
same state, whatever the flash holds around the table. -/
theorem lcd_draw_char_flash_agree (cfg : Config) (flash : Int → Nat) (c : Int)
    (s s' : State) (h : lcd_draw_char cfg c s = some s') :
    lcd_draw_char_flash cfg flash c s = some s' := by
  unfold lcd_draw_char at h
  unfold lcd_draw_char_flash
  split
  · rename_i h10
    rw [if_pos h10] at h
    exact h
  · rename_i h10
    rw [if_neg h10] at h
    split
    · rename_i h13
      rw [if_pos h13] at h
      exact h
    · rename_i h13
      rw [if_neg h13] at h
      split
      · rename_i h9
        rw [if_pos h9] at h
        exact h
      · rename_i h9
        rw [if_neg h9] at h
        split
        · rename_i h0
          rw [if_pos h0] at h
          cases hg : lcd_draw_char_glyph c (FONT_WIDTH - 1 - 0) 0 s with
          | none =>
            rw [hg] at h
            cases h
          | some s1 =>
            rw [hg] at h
            rw [lcd_draw_char_glyph_flash_agree flash c _ 0 s s1 hg]
            exact h
        · rename_i h0
          rw [if_neg h0] at h
          exact h

theorem lcd_draw_char_flash_control (cfg : Config) (flash : Int → Nat) (c : Int) (s : State)
    (hc : c = 10 ∨ c = 13 ∨ c = 9 ∨ c = 0) :
    lcd_draw_char_flash cfg flash c s = lcd_draw_char cfg c s := by
  unfold lcd_draw_char lcd_draw_char_flash
  rcases hc with h | h | h | h <;> subst h <;> rfl

theorem six_units_writes (f0 f1 f2 f3 f4 : Nat) (s : State)
    (b0 : f0 < 256) (b1 : f1 < 256) (b2 : f2 < 256) (b3 : f3 < 256) (b4 : f4 < 256) :
    ∃ es : List BusEvent, (∀ e ∈ es, ∃ d, e = BusEvent.write d) ∧
      lcd_draw_unit 0 0 0 0 (lcd_draw_unit f4 f4 f4 f4 (lcd_draw_unit f3 f3 f3 f3
        (lcd_draw_unit f2 f2 f2 f2 (lcd_draw_unit f1 f1 f1 f1
          (lcd_draw_unit f0 f0 f0 f0 s))))) =
        { lcd_cur_column := (s.lcd_cur_column + 6) % 256
          lcd_draw_started := if s.lcd_draw_started = 0 then 1 else s.lcd_draw_started
          trace := s.trace ++
            (if s.lcd_draw_started = 0 then [BusEvent.start 0x7E, BusEvent.write 0x40]
              else []) ++ es } := by
  refine ⟨[BusEvent.write f0, BusEvent.write f0, BusEvent.write f0, BusEvent.write f0,
      BusEvent.write f1, BusEvent.write f1, BusEvent.write f1, BusEvent.write f1,
      BusEvent.write f2, BusEvent.write f2, BusEvent.write f2, BusEvent.write f2,
      BusEvent.write f3, BusEvent.write f3, BusEvent.write f3, BusEvent.write f3,
      BusEvent.write f4, BusEvent.write f4, BusEvent.write f4, BusEvent.write f4,
      BusEvent.write 0, BusEvent.write 0, BusEvent.write 0, BusEvent.write 0], ?_,
    six_units_eq f0 f1 f2 f3 f4 s b0 b1 b2 b3 b4⟩
  intro e he
  simp only [List.mem_cons, List.mem_singleton, List.not_mem_nil, or_false] at he
  rcases he with h | h | h | h | h | h | h | h | h | h | h | h | h | h | h | h | h | h | h |
    h | h | h | h | h <;> exact ⟨_, h⟩

theorem lcd_draw_char_flash_glyph (cfg : Config) (flash : Int → Nat) (c : Int) (s : State)
    (h10 : c ≠ 10) (h13 : c ≠ 13) (h9 : c ≠ 9) (h0 : c ≠ 0) :
    ∃ es : List BusEvent, (∀ e ∈ es, ∃ d, e = BusEvent.write d) ∧
      lcd_draw_char_flash cfg flash c s = some
        { lcd_cur_column := (s.lcd_cur_column + 6) % 256
          lcd_draw_started := if s.lcd_draw_started = 0 then 1 else s.lcd_draw_started
          trace := s.trace ++
            (if s.lcd_draw_started = 0 then [BusEvent.start 0x7E, BusEvent.write 0x40]
              else []) ++ es } := by
  have e5 : FONT_WIDTH - 1 - 0 = 5 := rfl
  obtain ⟨es, hes, heq⟩ := six_units_writes
    (pgm_read_byte_flash flash ((c - 0x20) * 5 + ((0 : Nat) : Int)))
    (pgm_read_byte_flash flash ((c - 0x20) * 5 + ((0 + 1 : Nat) : Int)))
    (pgm_read_byte_flash flash ((c - 0x20) * 5 + ((0 + 1 + 1 : Nat) : Int)))
    (pgm_read_byte_flash flash ((c - 0x20) * 5 + ((0 + 1 + 1 + 1 : Nat) : Int)))
    (pgm_read_byte_flash flash ((c - 0x20) * 5 + ((0 + 1 + 1 + 1 + 1 : Nat) : Int))) s
    (pgm_read_byte_flash_lt _ _) (pgm_read_byte_flash_lt _ _)
    (pgm_read_byte_flash_lt _ _) (pgm_read_byte_flash_lt _ _) (pgm_read_byte_flash_lt _ _)
  refine ⟨es, hes, ?_⟩
  rw [lcd_draw_char_flash, if_neg h10, if_neg h13, if_neg h9, if_pos h0, e5, ← heq]
  rfl

theorem framed_lcd_draw_char_flash (cfg : Config) (flash : Int → Nat) (c : Int) (s : State)
    (ht : 1 ≤ cfg.FONT_TAB_SIZE)
    (hinv : frameScan false s.trace = some (decide (s.lcd_draw_started ≠ 0))) :
    ∃ s', lcd_draw_char_flash cfg flash c s = some s' ∧
      frameScan false s'.trace = some (decide (s'.lcd_draw_started ≠ 0)) := by
  by_cases hc : c = 10 ∨ c = 13 ∨ c = 9 ∨ c = 0
  · rw [lcd_draw_char_flash_control cfg flash c s hc]
    cases hr : lcd_draw_char cfg c s with
    | some s' => exact ⟨s', rfl, framed_lcd_draw_char cfg c s s' hinv hr⟩
    | none =>
      exfalso
      rcases (lcd_draw_char_eq_none_iff cfg c s).mp hr with ⟨a1, a2, a3, a4, _⟩ | ⟨_, a2⟩
      · rcases hc with h | h | h | h
        · exact a1 h
        · exact a2 h
        · exact a3 h
        · exact a4 h
      · omega
  · have h10 : c ≠ 10 := fun h => hc (Or.inl h)
    have h13 : c ≠ 13 := fun h => hc (Or.inr (Or.inl h))
    have h9 : c ≠ 9 := fun h => hc (Or.inr (Or.inr (Or.inl h)))
    have h0 : c ≠ 0 := fun h => hc (Or.inr (Or.inr (Or.inr h)))
    obtain ⟨es, hes, heq⟩ := lcd_draw_char_flash_glyph cfg flash c s h10 h13 h9 h0
    refine ⟨_, heq, ?_⟩
    simp only [List.append_assoc]
    apply framed_step s _ _ hinv
    by_cases h : s.lcd_draw_started = 0
    · simp [h, frameScan, frameScan_writes es hes]
    · simp [h, frameScan_writes es hes]

theorem framed_runOpsFlash (cfg : Config) (flash : Int → Nat) (ops : List Op) (s : State)
    (ht : 1 ≤ cfg.FONT_TAB_SIZE)
    (hinv : frameScan false s.trace = some (decide (s.lcd_draw_started ≠ 0))) :
    ∃ s', runOpsFlash cfg flash ops s = some s' ∧
      frameScan false s'.trace = some (decide (s'.lcd_draw_started ≠ 0)) := by
  induction ops generalizing s with
  | nil => exact ⟨s, rfl, hinv⟩
  | cons op ops ih =>
    have hstep : ∃ s1, op.runFlash cfg flash s = some s1 ∧
        frameScan false s1.trace = some (decide (s1.lcd_draw_started ≠ 0)) := by
      cases op with
      | draw_char c => exact framed_lcd_draw_char_flash cfg flash c s ht hinv
      | init => exact ⟨_, rfl, framed_Op_run cfg Op.init s _ hinv rfl⟩
      | set_row r => exact ⟨_, rfl, framed_Op_run cfg (Op.set_row r) s _ hinv rfl⟩
      | set_column c => exact ⟨_, rfl, framed_Op_run cfg (Op.set_column c) s _ hinv rfl⟩
      | set_row_column r c =>
        exact ⟨_, rfl, framed_Op_run cfg (Op.set_row_column r c) s _ hinv rfl⟩
      | draw_start => exact ⟨_, rfl, framed_Op_run cfg Op.draw_start s _ hinv rfl⟩
      | draw_end => exact ⟨_, rfl, framed_Op_run cfg Op.draw_end s _ hinv rfl⟩
      | draw_unit b0 b1 b2 b3 =>
        exact ⟨_, rfl, framed_Op_run cfg (Op.draw_unit b0 b1 b2 b3) s _ hinv rfl⟩
      | clear_row r c => exact ⟨_, rfl, framed_Op_run cfg (Op.clear_row r c) s _ hinv rfl⟩
      | clear_restofrow => exact ⟨_, rfl, framed_Op_run cfg Op.clear_restofrow s _ hinv rfl⟩
      | clear_screen => exact ⟨_, rfl, framed_Op_run cfg Op.clear_screen s _ hinv rfl⟩
    obtain ⟨s1, h1, hinv1⟩ := hstep
    obtain ⟨s', h2, h3⟩ := ih s1 hinv1
    refine ⟨s', ?_, h3⟩
    rw [runOpsFlash, h1]
    exact h2

theorem runOpsFlash_agree (cfg : Config) (flash : Int → Nat) (ops : List Op) (s s' : State)
    (h : runOps cfg ops s = some s') : runOpsFlash cfg flash ops s = some s' := by
  induction ops generalizing s with
  | nil => exact h
  | cons op ops ih =>
    rw [runOps] at h
    rw [runOpsFlash]
    cases hr : op.run cfg s with
    | none =>
      rw [hr] at h
      cases h
    | some s1 =>
      rw [hr] at h
      have e : op.runFlash cfg flash s = some s1 := by
        cases op with
        | draw_char c => exact lcd_draw_char_flash_agree cfg flash c s s1 hr
        | init => exact hr
        | set_row r => exact hr
        | set_column c => exact hr
        | set_row_column r c => exact hr
        | draw_start => exact hr
        | draw_end => exact hr
        | draw_unit b0 b1 b2 b3 => exact hr
        | clear_row r c => exact hr
        | clear_restofrow => exact hr
        | clear_screen => exact hr
      rw [e]
      exact ih s1 h

/-- C17: `lcd_init` ends with the column 0, the flag `lcd_draw_started` clear and
no bus transaction in progress.  After any finite sequence of the public
operations that begins with `lcd_init` (run from power-on, the trace empty),
with any arguments and any character codes, also codes outside the font, for
which the table read gives whatever byte the flash holds there: the run has a
final state, its whole trace is well framed (every write and every stop comes
with a transaction in progress), and `lcd_draw_started` is non-zero exactly when
a transaction is in progress at the end of the trace.  The tab width
`FONT_TAB_SIZE` is at least 1.  Where no read leaves the table the run is the
one of `runOps`. -/
theorem C17_flag_matches_framing (cfg : Config) (flash : Int → Nat) (ops : List Op)
    (s0 : State) (h0 : s0.trace = []) (ht : 1 ≤ cfg.FONT_TAB_SIZE) :
    ((lcd_init s0).lcd_cur_column = 0 ∧ (lcd_init s0).lcd_draw_started = 0 ∧
      frameScan false (lcd_init s0).trace = some false) ∧
    (∃ s', runOpsFlash cfg flash (Op.init :: ops) s0 = some s' ∧
      frameScan false s'.trace = some (decide (s'.lcd_draw_started ≠ 0))) ∧
    (∀ s', runOps cfg (Op.init :: ops) s0 = some s' →
      runOpsFlash cfg flash (Op.init :: ops) s0 = some s') := by
  have hinit := framed_lcd_init s0 false (by rw [h0]; rfl)
  refine ⟨hinit, ?_, fun s' h => runOpsFlash_agree cfg flash _ s0 s' h⟩
  obtain ⟨_, h2, h3⟩ := hinit
  obtain ⟨s', hrun, hinv⟩ :=
    framed_runOpsFlash cfg flash ops (lcd_init s0) ht (by rw [h3, h2]; rfl)
  exact ⟨s', hrun, hinv⟩

theorem C17_flag_matches_framing_witness :
    ∃ s', runOpsFlash ⟨160, 13, 4⟩ (fun _ => 0xFF)
        [Op.init, Op.clear_screen, Op.set_row_column 0 0, Op.draw_char 0x48, Op.draw_char 9,
          Op.draw_char 0x7F, Op.draw_start, Op.draw_unit 1 2 3 4, Op.draw_char 0x01, Op.init,
          Op.draw_char (-3), Op.draw_char 10]
        ⟨0, 0, []⟩ = some s' ∧
      frameScan false s'.trace = some (decide (s'.lcd_draw_started ≠ 0)) :=
  (C17_flag_matches_framing ⟨160, 13, 4⟩ (fun _ => 0xFF)
    [Op.clear_screen, Op.set_row_column 0 0, Op.draw_char 0x48, Op.draw_char 9,
      Op.draw_char 0x7F, Op.draw_start, Op.draw_unit 1 2 3 4, Op.draw_char 0x01, Op.init,
      Op.draw_char (-3), Op.draw_char 10]
    ⟨0, 0, []⟩ rfl (by decide)).2.1

/-- C18: for every non-empty list `str` of printable characters (each in
0x20 .. 0x7E) and every starting column `k`, feeding `str` character by
character to `lcd_draw_char`, or to `lcd_draw_putchar` (which returns 0 each
time), from a closed session emits one start (address byte 0x7E), then 0x40,
then `24 * length str` data bytes (for each character in order its five glyph
columns four times each, then four zero bytes) and no stop; afterwards the
session is open and the column is `(k + 6 * length str) mod 256`. -/
theorem C18_string_one_transaction (cfg : Config) (str : List Int) (s : State)
    (hne : str ≠ []) (hp : ∀ x ∈ str, 0x20 ≤ x ∧ x ≤ 0x7E)
    (hs : s.lcd_draw_started = 0) :
    lcd_draw_chars cfg str s = some
      { lcd_cur_column := (s.lcd_cur_column + 6 * str.length) % 256
        lcd_draw_started := 1
        trace := s.trace ++ [BusEvent.start 0x7E, BusEvent.write 0x40] ++
          str.flatMap glyphEvents } ∧
    lcd_draw_putchars cfg str s = some (List.replicate str.length 0,
      { lcd_cur_column := (s.lcd_cur_column + 6 * str.length) % 256
        lcd_draw_started := 1
        trace := s.trace ++ [BusEvent.start 0x7E, BusEvent.write 0x40] ++
          str.flatMap glyphEvents }) ∧
    (str.flatMap glyphEvents).length = 24 * str.length ∧
    (∀ e ∈ str.flatMap glyphEvents, ∃ b, e = BusEvent.write b) := by
  cases str with
  | nil => exact absurd rfl hne
  | cons c cs =>
    have h := lcd_draw_chars_closed cfg cs c s hs hp
    refine ⟨h, ?_, flatMap_glyphEvents_length _, ?_⟩
    · rw [lcd_draw_putchars_eq, h]
      rfl
    · intro e he
      obtain ⟨x, _, hx⟩ := List.mem_flatMap.mp he
      exact glyphEvents_writes x e hx

set_option maxRecDepth 100000 in
theorem glyphEvents_Hi :
    [(0x48 : Int), 0x69].flatMap glyphEvents =
      [BusEvent.write 0xFE, BusEvent.write 0xFE, BusEvent.write 0xFE, BusEvent.write 0xFE,
        BusEvent.write 0x10, BusEvent.write 0x10, BusEvent.write 0x10, BusEvent.write 0x10,
        BusEvent.write 0x10, BusEvent.write 0x10, BusEvent.write 0x10, BusEvent.write 0x10,
        BusEvent.write 0x10, BusEvent.write 0x10, BusEvent.write 0x10, BusEvent.write 0x10,
        BusEvent.write 0xFE, BusEvent.write 0xFE, BusEvent.write 0xFE, BusEvent.write 0xFE,
        BusEvent.write 0, BusEvent.write 0, BusEvent.write 0, BusEvent.write 0,
        BusEvent.write 0x00, BusEvent.write 0x00, BusEvent.write 0x00, BusEvent.write 0x00,
        BusEvent.write 0x88, BusEvent.write 0x88, BusEvent.write 0x88, BusEvent.write 0x88,
        BusEvent.write 0xFA, BusEvent.write 0xFA, BusEvent.write 0xFA, BusEvent.write 0xFA,
        BusEvent.write 0x80, BusEvent.write 0x80, BusEvent.write 0x80, BusEvent.write 0x80,
        BusEvent.write 0x00, BusEvent.write 0x00, BusEvent.write 0x00, BusEvent.write 0x00,
        BusEvent.write 0, BusEvent.write 0, BusEvent.write 0, BusEvent.write 0] := by
  decide

theorem C18_string_one_transaction_witness :
    lcd_draw_chars ⟨160, 13, 4⟩ [0x48, 0x69] ⟨250, 0, []⟩ = some
      { lcd_cur_column := 6
        lcd_draw_started := 1
        trace := [BusEvent.start 0x7E, BusEvent.write 0x40] ++
          [BusEvent.write 0xFE, BusEvent.write 0xFE, BusEvent.write 0xFE, BusEvent.write 0xFE,
            BusEvent.write 0x10, BusEvent.write 0x10, BusEvent.write 0x10, BusEvent.write 0x10,
            BusEvent.write 0x10, BusEvent.write 0x10, BusEvent.write 0x10, BusEvent.write 0x10,
            BusEvent.write 0x10, BusEvent.write 0x10, BusEvent.write 0x10, BusEvent.write 0x10,
            BusEvent.write 0xFE, BusEvent.write 0xFE, BusEvent.write 0xFE, BusEvent.write 0xFE,
            BusEvent.write 0, BusEvent.write 0, BusEvent.write 0, BusEvent.write 0,
            BusEvent.write 0x00, BusEvent.write 0x00, BusEvent.write 0x00, BusEvent.write 0x00,
            BusEvent.write 0x88, BusEvent.write 0x88, BusEvent.write 0x88, BusEvent.write 0x88,
            BusEvent.write 0xFA, BusEvent.write 0xFA, BusEvent.write 0xFA, BusEvent.write 0xFA,
            BusEvent.write 0x80, BusEvent.write 0x80, BusEvent.write 0x80, BusEvent.write 0x80,
            BusEvent.write 0x00, BusEvent.write 0x00, BusEvent.write 0x00, BusEvent.write 0x00,
            BusEvent.write 0, BusEvent.write 0, BusEvent.write 0, BusEvent.write 0] } := by
  have h := (C18_string_one_transaction ⟨160, 13, 4⟩ [0x48, 0x69] ⟨250, 0, []⟩
    (by decide) (by decide) rfl).1
  rw [h, glyphEvents_Hi]
  rfl

/-! ## Tab width and termination -/

theorem tab_stop_arith (M a : Nat) (hM : 0 < M) :
    1 ≤ M - a % M ∧ M - a % M ≤ M ∧ (a + (M - a % M)) % M = 0 ∧
    (∀ j, 1 ≤ j → j < M - a % M → (a + j) % M ≠ 0) ∧
    (∀ m, M ∣ m → a < m → a + (M - a % M) ≤ m) := by
  have hr : a % M < M := Nat.mod_lt a hM
  have hdiv : M * (a / M) + a % M = a := Nat.div_add_mod a M
  have hsum : a + (M - a % M) = M * (a / M + 1) := by
    rw [Nat.mul_add, Nat.mul_one]
    omega
  refine ⟨by omega, by omega, ?_, ?_, ?_⟩
  · rw [hsum, Nat.mul_mod_right]
  · intro j h1 h2
    rw [← Nat.mod_add_mod, Nat.mod_eq_of_lt (by omega)]
    omega
  · rintro m ⟨t, rfl⟩ hlt
    rw [hsum]
    apply Nat.mul_le_mul_left
    by_contra hcon
    have ht : t ≤ a / M := by omega
    have := Nat.mul_le_mul_left M ht
    omega

theorem lcd_draw_char_tab_exact (cfg : Config) (s : State)
    (hM : 1 ≤ FONT_WIDTH * cfg.FONT_TAB_SIZE)
    (hk : s.lcd_cur_column + 5 + FONT_WIDTH * cfg.FONT_TAB_SIZE ≤ 255) :
    lcd_draw_char cfg 9 s = some
      { lcd_cur_column := s.lcd_cur_column +
          (5 + (FONT_WIDTH * cfg.FONT_TAB_SIZE -
            (s.lcd_cur_column + 5) % (FONT_WIDTH * cfg.FONT_TAB_SIZE)))
        lcd_draw_started := if s.lcd_draw_started = 0 then 1 else s.lcd_draw_started
        trace := s.trace ++
          (if s.lcd_draw_started = 0 then [BusEvent.start 0x7E, BusEvent.write 0x40]
            else []) ++
          List.replicate
            (4 * (5 + (FONT_WIDTH * cfg.FONT_TAB_SIZE -
              (s.lcd_cur_column + 5) % (FONT_WIDTH * cfg.FONT_TAB_SIZE))))
            (BusEvent.write 0) } := by
  have ht : 0 < cfg.FONT_TAB_SIZE := by
    rcases Nat.eq_zero_or_pos cfg.FONT_TAB_SIZE with h | h
    · rw [h] at hM
      simp at hM
    · exact h
  obtain ⟨n, hn1, _, heq, hmod, hmin⟩ := lcd_draw_char_tab_eq cfg s ht
  obtain ⟨j1, j2, jmod, jmin, _⟩ :=
    tab_stop_arith (FONT_WIDTH * cfg.FONT_TAB_SIZE) (s.lcd_cur_column + 5) hM
  generalize FONT_WIDTH * cfg.FONT_TAB_SIZE = M at *
  generalize hj : M - (s.lcd_cur_column + 5) % M = j0 at *
  have hle : n ≤ j0 := by
    by_contra hcon
    apply hmin j0 j1 (by omega)
    rw [Nat.mod_eq_of_lt (show s.lcd_cur_column + (5 + j0) < 256 by omega), ← Nat.add_assoc]
    exact jmod
  have hge : j0 ≤ n := by
    by_contra hcon
    apply jmin n hn1 (by omega)
    rw [Nat.mod_eq_of_lt (show s.lcd_cur_column + (5 + n) < 256 by omega),
      ← Nat.add_assoc] at hmod
    exact hmod
  have hn : n = j0 := by omega
  subst hn
  rw [heq, Nat.mod_eq_of_lt (show s.lcd_cur_column + (5 + n) < 256 by omega)]

/-- With the column as an 8-bit counter the alignment loop ends within
`256 - column % 256` iterations, whatever the modulus. -/
theorem lcd_draw_char_tab_loop_bounded_eq (M : Nat) (fuel : Nat) (s : State)
    (h : 256 - s.lcd_cur_column % 256 ≤ fuel) :
    lcd_draw_char_tab_loop_bounded M fuel s = some (lcd_draw_char_tab_loop M s) := by
  have hcol : ∀ x : State,
      (lcd_draw_unit 0 0 0 0 x).lcd_cur_column = (x.lcd_cur_column + 1) % 256 := by
    intro x
    by_cases hx : x.lcd_draw_started = 0
    · rw [lcd_draw_unit_closed _ _ _ _ x hx]
    · rw [lcd_draw_unit_open _ _ _ _ x hx]
  induction fuel generalizing s with
  | zero =>
    have := Nat.mod_lt s.lcd_cur_column (by decide : 0 < 256)
    omega
  | succ fuel ih =>
    rw [lcd_draw_char_tab_loop_bounded, lcd_draw_char_tab_loop]
    by_cases hc : (lcd_draw_unit 0 0 0 0 s).lcd_cur_column % M ≠ 0
    · rw [if_pos hc, if_pos hc]
      apply ih
      rw [hcol] at hc ⊢
      have hne : (s.lcd_cur_column + 1) % 256 ≠ 0 := by
        intro h0
        rw [h0] at hc
        simp at hc
      omega
    · rw [if_neg hc, if_neg hc]

/-- C19: with `M = FONT_WIDTH * FONT_TAB_SIZE ≥ 1` and a starting column `k` with
`k + 5 + M ≤ 255`, `lcd_draw_char` of a tab emits exactly
`5 + (M - ((k + 5) mod M))` blank units, which is at least 6 and at most `5 + M`;
the new column is the least multiple of `M` strictly greater than `k + 5`.  When
`k + 5` is already a multiple of `M` the tab draws `M` further units. -/
theorem C19_tab_exact_width (cfg : Config) (s : State)
    (hM : 1 ≤ FONT_WIDTH * cfg.FONT_TAB_SIZE)
    (hk : s.lcd_cur_column + 5 + FONT_WIDTH * cfg.FONT_TAB_SIZE ≤ 255) :
    lcd_draw_char cfg 9 s = some
      { lcd_cur_column := s.lcd_cur_column +
          (5 + (FONT_WIDTH * cfg.FONT_TAB_SIZE -
            (s.lcd_cur_column + 5) % (FONT_WIDTH * cfg.FONT_TAB_SIZE)))
        lcd_draw_started := if s.lcd_draw_started = 0 then 1 else s.lcd_draw_started
        trace := s.trace ++
          (if s.lcd_draw_started = 0 then [BusEvent.start 0x7E, BusEvent.write 0x40]
            else []) ++
          List.replicate
            (4 * (5 + (FONT_WIDTH * cfg.FONT_TAB_SIZE -
              (s.lcd_cur_column + 5) % (FONT_WIDTH * cfg.FONT_TAB_SIZE))))
            (BusEvent.write 0) } ∧
    6 ≤ 5 + (FONT_WIDTH * cfg.FONT_TAB_SIZE -
      (s.lcd_cur_column + 5) % (FONT_WIDTH * cfg.FONT_TAB_SIZE)) ∧
    5 + (FONT_WIDTH * cfg.FONT_TAB_SIZE -
      (s.lcd_cur_column + 5) % (FONT_WIDTH * cfg.FONT_TAB_SIZE)) ≤
        5 + FONT_WIDTH * cfg.FONT_TAB_SIZE ∧
    (s.lcd_cur_column + (5 + (FONT_WIDTH * cfg.FONT_TAB_SIZE -
      (s.lcd_cur_column + 5) % (FONT_WIDTH * cfg.FONT_TAB_SIZE)))) %
        (FONT_WIDTH * cfg.FONT_TAB_SIZE) = 0 ∧
    s.lcd_cur_column + 5 < s.lcd_cur_column + (5 + (FONT_WIDTH * cfg.FONT_TAB_SIZE -
      (s.lcd_cur_column + 5) % (FONT_WIDTH * cfg.FONT_TAB_SIZE))) ∧
    (∀ m, FONT_WIDTH * cfg.FONT_TAB_SIZE ∣ m → s.lcd_cur_column + 5 < m →
      s.lcd_cur_column + (5 + (FONT_WIDTH * cfg.FONT_TAB_SIZE -
        (s.lcd_cur_column + 5) % (FONT_WIDTH * cfg.FONT_TAB_SIZE))) ≤ m) ∧
    ((s.lcd_cur_column + 5) % (FONT_WIDTH * cfg.FONT_TAB_SIZE) = 0 →
      5 + (FONT_WIDTH * cfg.FONT_TAB_SIZE -
        (s.lcd_cur_column + 5) % (FONT_WIDTH * cfg.FONT_TAB_SIZE)) =
          5 + FONT_WIDTH * cfg.FONT_TAB_SIZE) := by
  obtain ⟨j1, j2, jmod, _, jleast⟩ :=
    tab_stop_arith (FONT_WIDTH * cfg.FONT_TAB_SIZE) (s.lcd_cur_column + 5) hM
  refine ⟨lcd_draw_char_tab_exact cfg s hM hk, by omega, by omega, ?_, by omega, ?_, ?_⟩
  · rw [← Nat.add_assoc]
    exact jmod
  · intro m hdvd hlt
    rw [← Nat.add_assoc]
    exact jleast m hdvd hlt
  · intro h0
    rw [h0, Nat.sub_zero]

theorem C19_tab_exact_width_witness :
    lcd_draw_char ⟨160, 13, 4⟩ 9 ⟨19, 1, []⟩ = some
      { lcd_cur_column := 48
        lcd_draw_started := 1
        trace := List.replicate (4 * 29) (BusEvent.write 0) } := by
  have h := (C19_tab_exact_width ⟨160, 13, 4⟩ ⟨19, 1, []⟩ (by decide) (by decide)).1
  rw [h]
  rfl

set_option maxRecDepth 100000 in
theorem tab_loop_needs_256 :
    lcd_draw_char_tab_loop_bounded 300 255 ⟨0, 1, []⟩ = none ∧
    (lcd_draw_char_tab_loop_bounded 300 256 ⟨0, 1, []⟩).map (fun s => s.lcd_cur_column) =
      some 0 := by
  decide

/-- C20: with the column an 8-bit counter, for every starting state and every
modulus `M` the alignment loop of the tab branch ends within 256 iterations:
cut off after 256 iterations it returns the state the loop returns.  So for
every `FONT_TAB_SIZE ≥ 1` (also when `M = FONT_WIDTH * FONT_TAB_SIZE > 255`) a
tab emits `n ≤ 5 + 256` blank units in total.  The bound is reached: with
`M = 300` from column 0, 255 iterations are not enough. -/
theorem C20_tab_terminates (cfg : Config) (M : Nat) (s : State)
    (ht : 1 ≤ cfg.FONT_TAB_SIZE) :
    lcd_draw_char_tab_loop_bounded M 256 s = some (lcd_draw_char_tab_loop M s) ∧
    lcd_draw_char cfg 9 s =
      lcd_draw_char_tab_loop_bounded (FONT_WIDTH * cfg.FONT_TAB_SIZE) 256
        (lcd_draw_unit 0 0 0 0 (lcd_draw_unit 0 0 0 0 (lcd_draw_unit 0 0 0 0
          (lcd_draw_unit 0 0 0 0 (lcd_draw_unit 0 0 0 0 s))))) ∧
    (∃ n, n ≤ 5 + 256 ∧
      lcd_draw_char cfg 9 s = some
        { lcd_cur_column := (s.lcd_cur_column + n) % 256
          lcd_draw_started := if s.lcd_draw_started = 0 then 1 else s.lcd_draw_started
          trace := s.trace ++
            (if s.lcd_draw_started = 0 then [BusEvent.start 0x7E, BusEvent.write 0x40]
              else []) ++
            List.replicate (4 * n) (BusEvent.write 0) }) ∧
    lcd_draw_char_tab_loop_bounded 300 255 ⟨0, 1, []⟩ = none := by
  have hb : ∀ x : State,
      lcd_draw_char_tab_loop_bounded M 256 x = some (lcd_draw_char_tab_loop M x) :=
    fun x => lcd_draw_char_tab_loop_bounded_eq M 256 x (by omega)
  refine ⟨hb s, ?_, ?_, tab_loop_needs_256.1⟩
  · rw [lcd_draw_char_tab_unfold cfg s ht,
      lcd_draw_char_tab_loop_bounded_eq _ 256 _ (by omega)]
    rfl
  · obtain ⟨n, _, hn, heq, _, _⟩ := lcd_draw_char_tab_eq cfg s ht
    exact ⟨5 + n, by omega, heq⟩

theorem C20_tab_terminates_witness :
    ∃ n, n ≤ 5 + 256 ∧
      lcd_draw_char ⟨160, 13, 50⟩ 9 ⟨3, 0, []⟩ = some
        { lcd_cur_column := (3 + n) % 256
          lcd_draw_started := if (0 : Nat) = 0 then 1 else 0
          trace := [] ++
            (if (0 : Nat) = 0 then [BusEvent.start 0x7E, BusEvent.write 0x40] else []) ++
            List.replicate (4 * n) (BusEvent.write 0) } :=
  (C20_tab_terminates ⟨160, 13, 50⟩ 300 ⟨3, 0, []⟩ (by decide)).2.2.1

end Lcd
